import Mathlib

/-!
# Modbus RTU protocol engine

A shallow embedding of `modbus_rtu.c` / `modbus_rtu.h`:

* the CRC engine `crc16`;
* the master side: `master_transaction`, `ModbusMaster_ReadHoldingRegisters`,
  `ModbusMaster_WriteSingleRegister`, `ModbusMaster_WriteMultipleRegisters`,
  `ModbusMaster_SendString`;
* the slave side: `ModbusSlave_Init`, `ModbusSlave_ProcessRequest`.

Conventions of the embedding.

* `uint8_t`, `uint16_t`, `uint32_t` values are natural numbers; a narrowing store
  is written with an explicit `% 256`, `% 65536` or `% 4294967296`.  Integer
  promotion to (at least 32-bit) `int` is exact arithmetic on `Nat`.
* A C buffer is a `List Nat`; `buf[i]` is `buf.getD i 0`, and
  `crc16(buf, n)` is `crc16 (buf.take n)`.
* The hardware callbacks of `ModbusMaster` are a deterministic transport:
  `uart_receive k` is the byte sequence deposited by the `k`-th poll (the empty
  list when the poll returns `0`); the bytes handed to `uart_send` and the number
  of `delay_ms(1)` calls are recorded in the outcome.
* The string `str` of `ModbusMaster_SendString` is the memory from the pointer
  on: the bytes of the text, the terminating NUL, then whatever follows.
* Where a claim is about the indices at which an array is accessed, the outcome
  carries a log of those indices in program order (`reg_reads`, `reg_writes`,
  `request_writes`, `str_reads`).
* `ModbusSlave_ProcessRequest` leaves the reception of the frame open
  (`// Receive frame`); the embedding takes the two locals `frame` and
  `frame_length` as they stand after reception as arguments, and returns the
  response buffer `response[0 .. resp_len)` as it stands where the response is
  to be sent.
-/

set_option maxRecDepth 100000

namespace Modbus

/-! ## Constants of `modbus_rtu.h` -/

abbrev MODBUS_MAX_COILS : Nat := 2000
abbrev MODBUS_MAX_DISCRETE_INPUTS : Nat := 2000
abbrev MODBUS_MAX_HOLDING_REGISTERS : Nat := 125
abbrev MODBUS_MAX_INPUT_REGISTERS : Nat := 125
abbrev MODBUS_MAX_FRAME_SIZE : Nat := 256

abbrev MODBUS_FC_READ_COILS : Nat := 0x01
abbrev MODBUS_FC_READ_DISCRETE_INPUTS : Nat := 0x02
abbrev MODBUS_FC_READ_HOLDING_REGISTERS : Nat := 0x03
abbrev MODBUS_FC_READ_INPUT_REGISTERS : Nat := 0x04
abbrev MODBUS_FC_WRITE_SINGLE_COIL : Nat := 0x05
abbrev MODBUS_FC_WRITE_SINGLE_REGISTER : Nat := 0x06
abbrev MODBUS_FC_WRITE_MULTIPLE_COILS : Nat := 0x0F
abbrev MODBUS_FC_WRITE_MULTIPLE_REGISTERS : Nat := 0x10
abbrev MODBUS_FC_CUSTOM_STRING : Nat := 0x16

/-- The enum `ModbusError`. -/
inductive ModbusError where
  | MODBUS_SUCCESS
  | MODBUS_ERR_INVALID_ADDRESS
  | MODBUS_ERR_INVALID_DATA
  | MODBUS_ERR_CRC_MISMATCH
  | MODBUS_ERR_TIMEOUT
  | MODBUS_ERR_SLAVE_FAILURE
deriving DecidableEq

open ModbusError

/-! ## CRC engine -/

/-- One pass of the inner loop body of `crc16` (lines 9-14). -/
def crc16_bit (crc : Nat) : Nat :=
  if (crc &&& 0x0001) ≠ 0 then (crc >>> 1) ^^^ 0xA001 else crc >>> 1

/-- The inner loop `for (uint8_t i = 8; i != 0; i--)` of `crc16`, started with
counter `i`. -/
def crc16_bits : Nat → Nat → Nat
  | 0, crc => crc
  | i + 1, crc => crc16_bits i (crc16_bit crc)

/-- The body of the outer loop of `crc16` for the byte `buffer[pos]`
(lines 7-15); the cast `(uint16_t)buffer[pos]` is `b % 65536`. -/
def crc16_byte (crc b : Nat) : Nat :=
  crc16_bits 8 (crc ^^^ (b % 65536))

/-- The function `crc16(buffer, length)`; the argument is `buffer[0 .. length)`. -/
def crc16 (buffer : List Nat) : Nat :=
  buffer.foldl crc16_byte 0xFFFF

/-- The reference step of the Modbus CRC-16, in the words of the specification:
if the low bit is set, shift right by one and XOR with `0xA001`, otherwise shift
right by one. -/
def modbusCrcStep (c : Nat) : Nat :=
  if c % 2 = 1 then (c / 2) ^^^ 0xA001 else c / 2

/-! ## Master -/

/-- The struct `ModbusMaster`.  Of the three callbacks only `uart_receive` yields
a value: `uart_receive k` is what the `k`-th poll deposits in the response buffer
(its length is the value the callback returns). -/
structure ModbusMaster where
  slave_address : Nat
  timeout_ms : Nat
  uart_receive : Nat → List Nat

/-- The function `ModbusMaster_Init`: the address and the transport are stored,
the timeout is set to 1000. -/
def ModbusMaster_Init (slave_address : Nat) (uart_receive : Nat → List Nat) :
    ModbusMaster :=
  { slave_address := slave_address, timeout_ms := 1000, uart_receive := uart_receive }

/-- How the polling loop of `master_transaction` (lines 42-45) is left: by the
`return MODBUS_ERR_TIMEOUT` inside it, or with a non-empty response; `delays` is
the number of `delay_ms(1)` calls made. -/
inductive Polled where
  | timed_out (delays : Nat)
  | received (response : List Nat) (delays : Nat)
deriving DecidableEq

/-- The polling loop of `master_transaction` (lines 42-45), entered with `polls`
polls already made and the `uint32_t` counter at `start_time`.  `none` when the
loop is still running after `fuel` iterations. -/
def awaitResponse (ctx : ModbusMaster) : Nat → Nat → Nat → Option Polled
  | 0, _, _ => none
  | fuel + 1, polls, start_time =>
    let response := ctx.uart_receive polls
    if response.length = 0 then
      -- ctx->delay_ms(1)
      let start_time := (start_time + 1) % 4294967296
      if start_time > ctx.timeout_ms then some (Polled.timed_out (polls + 1))
      else awaitResponse ctx fuel (polls + 1) start_time
    else some (Polled.received response polls)

/-- What a finished `master_transaction` leaves: the returned error code, the
response buffer `response[0 .. *resp_len)` and the number of `delay_ms(1)`
calls. -/
structure TransactionEnd where
  err : ModbusError
  response : List Nat
  delays : Nat
deriving DecidableEq

/-- Outcome of `master_transaction`: the bytes handed to `uart_send` (line 39,
before the polling loop) and, when the polling loop is left within the fuel, how
the call ended. -/
structure Transaction where
  sent : List Nat
  finished : Option TransactionEnd
deriving DecidableEq

/-- The checks of `master_transaction` on a received response (lines 47-58). -/
def master_validate (ctx : ModbusMaster) (response : List Nat) : ModbusError :=
  let resp_len := response.length
  if resp_len < 4 then MODBUS_ERR_INVALID_DATA
  else
    let crc := crc16 (response.take (resp_len - 2))
    if response.getD (resp_len - 2) 0 ≠ (crc &&& 0xFF) ∨
        response.getD (resp_len - 1) 0 ≠ ((crc >>> 8) &&& 0xFF) then
      MODBUS_ERR_CRC_MISMATCH
    else if response.getD 0 0 ≠ ctx.slave_address then MODBUS_ERR_INVALID_ADDRESS
    else if (response.getD 1 0 &&& 0x80) ≠ 0 then MODBUS_ERR_SLAVE_FAILURE
    else MODBUS_SUCCESS

/-- The function `master_transaction(ctx, request, req_len, response, resp_len)`;
the argument `request` is `request[0 .. req_len)`. -/
def master_transaction (fuel : Nat) (ctx : ModbusMaster) (request : List Nat) :
    Transaction :=
  let crc := crc16 request
  let request := request ++ [crc &&& 0xFF, (crc >>> 8) &&& 0xFF]
  -- ctx->uart_send(request, req_len)
  { sent := request
    finished :=
      match awaitResponse ctx fuel 0 0 with
      | none => none
      | some (Polled.timed_out delays) =>
        some { err := MODBUS_ERR_TIMEOUT, response := [], delays := delays }
      | some (Polled.received response delays) =>
        some { err := master_validate ctx response, response := response,
               delays := delays } }

/-- The unpacking loop of `ModbusMaster_ReadHoldingRegisters` (lines 77-80) on
the caller's array `values`. -/
def unpackRegisters (response : List Nat) (values : Nat → Nat) : Nat → Nat :=
  let byte_count := response.getD 2 0
  (List.range (byte_count / 2)).foldl
    (fun vals i => Function.update vals i
      (((response.getD (3 + i * 2) 0 <<< 8) ||| response.getD (4 + i * 2) 0) % 65536))
    values

/-- Outcome of `ModbusMaster_ReadHoldingRegisters`: the bytes sent and, when the
transaction finished, the returned code with the caller's array `values`. -/
structure ReadOutcome where
  sent : List Nat
  finished : Option (ModbusError × (Nat → Nat))

/-- The function `ModbusMaster_ReadHoldingRegisters(ctx, start_addr, quantity,
values)`. -/
def ModbusMaster_ReadHoldingRegisters (fuel : Nat) (ctx : ModbusMaster)
    (start_addr quantity : Nat) (values : Nat → Nat) : ReadOutcome :=
  let request := [ctx.slave_address, MODBUS_FC_READ_HOLDING_REGISTERS,
    (start_addr >>> 8) % 256, start_addr &&& 0xFF,
    (quantity >>> 8) % 256, quantity &&& 0xFF]
  let t := master_transaction fuel ctx request
  { sent := t.sent
    finished :=
      match t.finished with
      | none => none
      | some e =>
        if e.err ≠ MODBUS_SUCCESS then some (e.err, values)
        else some (MODBUS_SUCCESS, unpackRegisters e.response values) }

/-- The function `ModbusMaster_WriteSingleRegister(ctx, addr, value)`. -/
def ModbusMaster_WriteSingleRegister (fuel : Nat) (ctx : ModbusMaster)
    (addr value : Nat) : Transaction :=
  let request := [ctx.slave_address, MODBUS_FC_WRITE_SINGLE_REGISTER,
    (addr >>> 8) % 256, addr &&& 0xFF,
    (value >>> 8) % 256, value &&& 0xFF]
  master_transaction fuel ctx request

/-- The indices of the array `request` that `master_transaction` writes when it
appends the CRC (lines 36-37: `request[req_len++]` twice), for the `req_len` it
is called with. -/
def master_transaction_writes (req_len : Nat) : List Nat :=
  [req_len, req_len + 1]

/-- The packing loop of `ModbusMaster_WriteMultipleRegisters` (lines 221-224):
the request bytes written so far (the indices `7 + i*2` and `8 + i*2` follow one
another, so the bytes are appended) and the log of indices of `request`
written. -/
def packRegisters (values : List Nat) (quantity : Nat) (request writes : List Nat) :
    List Nat × List Nat :=
  (List.range quantity).foldl
    (fun st i =>
      (st.1 ++ [(values.getD i 0 >>> 8) % 256, values.getD i 0 &&& 0xFF],
       st.2 ++ [7 + i * 2, 8 + i * 2]))
    (request, writes)

/-- Outcome of `ModbusMaster_WriteMultipleRegisters`: the bytes handed to
`uart_send` (`none` when the call returns before sending), the returned code
(`none` while the polling loop is still running), the declared length of the
array `request` and the indices of `request` written, in program order, those
written by `master_transaction` included. -/
structure WriteOutcome where
  sent : Option (List Nat)
  finished : Option ModbusError
  request_size : Nat
  request_writes : List Nat
deriving DecidableEq

/-- The response check of `ModbusMaster_WriteMultipleRegisters` (lines 232-239),
reached when `master_transaction` returned `MODBUS_SUCCESS`. -/
def verifyWriteResponse (response : List Nat) (start_addr quantity : Nat) : ModbusError :=
  if response.length ≠ 8 ∨
      response.getD 1 0 ≠ MODBUS_FC_WRITE_MULTIPLE_REGISTERS ∨
      ((response.getD 2 0 <<< 8) ||| response.getD 3 0) ≠ start_addr ∨
      ((response.getD 4 0 <<< 8) ||| response.getD 5 0) ≠ quantity then
    MODBUS_ERR_INVALID_DATA
  else MODBUS_SUCCESS

/-- The function `ModbusMaster_WriteMultipleRegisters(ctx, start_addr, quantity,
values)`. -/
def ModbusMaster_WriteMultipleRegisters (fuel : Nat) (ctx : ModbusMaster)
    (start_addr quantity : Nat) (values : List Nat) : WriteOutcome :=
  if quantity < 1 ∨ quantity > MODBUS_MAX_HOLDING_REGISTERS then
    { sent := none, finished := some MODBUS_ERR_INVALID_DATA,
      request_size := 0, request_writes := [] }
  else
    -- uint8_t request[6 + 2 * quantity]
    let p := packRegisters values quantity
      [ctx.slave_address, MODBUS_FC_WRITE_MULTIPLE_REGISTERS,
       (start_addr >>> 8) % 256, start_addr &&& 0xFF,
       (quantity >>> 8) % 256, quantity &&& 0xFF,
       (quantity * 2) % 256]
      [0, 1, 2, 3, 4, 5, 6]
    let t := master_transaction fuel ctx p.1
    { sent := some t.sent
      finished :=
        match t.finished with
        | none => none
        | some e =>
          if e.err ≠ MODBUS_SUCCESS then some e.err
          else some (verifyWriteResponse e.response start_addr quantity)
      request_size := 6 + 2 * quantity
      request_writes := p.2 ++ master_transaction_writes (7 + quantity * 2) }

/-- The function `strlen` on the memory `str` points to: the number of bytes
before the first NUL (the end of the list counts as a NUL). -/
def strlen : List Nat → Nat
  | [] => 0
  | c :: cs => if c = 0 then 0 else strlen cs + 1

/-- The packing loop of `ModbusMaster_SendString` (lines 104-107) on the memory
`str` points to: the array `registers`, zero-initialised, then written for
`i = 0 .. 14`, and the log of indices of `str` read.  The bytes of `str` are
taken as unsigned; with a signed `char` the value `(str[i*2] << 8) | ...`
stored in the `uint16_t` is the same modulo 65536. -/
def packString (str : List Nat) : List Nat × List Nat :=
  (List.range 15).foldl
    (fun st i =>
      (st.1.set i (((str.getD (i * 2) 0 <<< 8) ||| (str.getD (i * 2 + 1) 0 &&& 0xFF)) % 65536),
       st.2 ++ [i * 2, i * 2 + 1]))
    (List.replicate 15 0, [])

/-- Outcome of `ModbusMaster_SendString`: the indices of `str` read by the
packing loop, the array `registers` passed to
`ModbusMaster_WriteMultipleRegisters` (`none` when the call returns at the
length check), and the outcome of that call (or of the early return). -/
structure SendStringOutcome where
  str_reads : List Nat
  registers : Option (List Nat)
  write : WriteOutcome
deriving DecidableEq

/-- The function `ModbusMaster_SendString(ctx, start_addr, str)`. -/
def ModbusMaster_SendString (fuel : Nat) (ctx : ModbusMaster) (start_addr : Nat)
    (str : List Nat) : SendStringOutcome :=
  let length := strlen str % 65536
  if length > 50 then
    { str_reads := [], registers := none
      write := { sent := none, finished := some MODBUS_ERR_INVALID_DATA,
                 request_size := 0, request_writes := [] } }
  else
    let p := packString str
    { str_reads := p.2, registers := some p.1
      write := ModbusMaster_WriteMultipleRegisters fuel ctx start_addr 15 p.1 }

/-! ## Slave -/

/-- The struct `ModbusSlave`. -/
structure ModbusSlave where
  address : Nat
  coils : List Nat
  discrete_inputs : List Nat
  holding_registers : List Nat
  input_registers : List Nat
deriving DecidableEq

/-- The function `ModbusSlave_Init`: every array zeroed, the address stored. -/
def ModbusSlave_Init (address : Nat) : ModbusSlave :=
  { address := address
    coils := List.replicate (MODBUS_MAX_COILS / 8 + 1) 0
    discrete_inputs := List.replicate (MODBUS_MAX_DISCRETE_INPUTS / 8 + 1) 0
    holding_registers := List.replicate MODBUS_MAX_HOLDING_REGISTERS 0
    input_registers := List.replicate MODBUS_MAX_INPUT_REGISTERS 0 }

/-- Outcome of the dispatch in `ModbusSlave_ProcessRequest`: the slave after the
call, the response buffer `response[0 .. resp_len)` after the CRC is appended
(`none` on the three early returns, where no response is built), and the
indices of `holding_registers` read and written, in program order. -/
structure SlaveOutcome where
  slave : ModbusSlave
  response : Option (List Nat)
  reg_reads : List Nat
  reg_writes : List Nat
deriving DecidableEq

/-- The copy loop of the `MODBUS_FC_READ_HOLDING_REGISTERS` case (lines 153-156):
the response buffer and the log of register indices read. -/
def readRegisters (holding_registers : List Nat) (start_addr quantity : Nat)
    (response : List Nat) : List Nat × List Nat :=
  (List.range quantity).foldl
    (fun st i =>
      (st.1 ++ [(holding_registers.getD (start_addr + i) 0 >>> 8) % 256,
                holding_registers.getD (start_addr + i) 0 &&& 0xFF],
       st.2 ++ [start_addr + i, start_addr + i]))
    (response, [])

/-- The store loop of the `MODBUS_FC_CUSTOM_STRING` case (lines 171-173): the
register array and the log of register indices written. -/
def writeRegisters (holding_registers frame : List Nat) (start_addr byte_count : Nat) :
    List Nat × List Nat :=
  (List.range (byte_count / 2)).foldl
    (fun st i =>
      (st.1.set (start_addr + i)
          (((frame.getD (5 + i * 2) 0 <<< 8) ||| frame.getD (6 + i * 2) 0) % 65536),
       st.2 ++ [start_addr + i]))
    (holding_registers, [])

/-- The `switch (frame[1])` of `ModbusSlave_ProcessRequest` (lines 135-191),
with `response[0] = slave->address` already stored. -/
def dispatch (slave : ModbusSlave) (frame : List Nat) : SlaveOutcome :=
  if frame.getD 1 0 = MODBUS_FC_READ_HOLDING_REGISTERS then
    let start_addr := ((frame.getD 2 0 <<< 8) ||| frame.getD 3 0) % 65536
    let quantity := ((frame.getD 4 0 <<< 8) ||| frame.getD 5 0) % 65536
    if start_addr + quantity > MODBUS_MAX_HOLDING_REGISTERS then
      { slave := slave
        response := some [slave.address, (frame.getD 1 0 ||| 0x80) % 256, 0x02]
        reg_reads := [], reg_writes := [] }
    else
      let r := readRegisters slave.holding_registers start_addr quantity
        [slave.address, MODBUS_FC_READ_HOLDING_REGISTERS, (quantity * 2) % 256]
      { slave := slave, response := some r.1, reg_reads := r.2, reg_writes := [] }
  else if frame.getD 1 0 = MODBUS_FC_CUSTOM_STRING then
    let start_addr := ((frame.getD 2 0 <<< 8) ||| frame.getD 3 0) % 65536
    let byte_count := frame.getD 4 0
    if byte_count > 30 ∨ start_addr + byte_count / 2 > MODBUS_MAX_HOLDING_REGISTERS then
      { slave := slave
        response := some [slave.address, (frame.getD 1 0 ||| 0x80) % 256, 0x03]
        reg_reads := [], reg_writes := [] }
    else
      let w := writeRegisters slave.holding_registers frame start_addr byte_count
      { slave := { slave with holding_registers := w.1 }
        response := some [slave.address, MODBUS_FC_CUSTOM_STRING,
          (start_addr >>> 8) % 256, start_addr &&& 0xFF,
          (byte_count >>> 8) % 256, byte_count &&& 0xFF]
        reg_reads := [], reg_writes := w.2 }
  else
    { slave := slave
      response := some [slave.address, (frame.getD 1 0 ||| 0x80) % 256, 0x01]
      reg_reads := [], reg_writes := [] }

/-- The function `ModbusSlave_ProcessRequest(slave)`, with the received frame
(the locals `frame` and `frame_length` after reception) as arguments. -/
def ModbusSlave_ProcessRequest (slave : ModbusSlave) (frame : List Nat)
    (frame_length : Nat) : SlaveOutcome :=
  if frame_length < 4 then
    { slave := slave, response := none, reg_reads := [], reg_writes := [] }
  else
    let crc := crc16 (frame.take (frame_length - 2))
    if frame.getD (frame_length - 2) 0 ≠ (crc &&& 0xFF) ∨
        frame.getD (frame_length - 1) 0 ≠ (crc >>> 8) then
      { slave := slave, response := none, reg_reads := [], reg_writes := [] }
    else if frame.getD 0 0 ≠ slave.address then
      { slave := slave, response := none, reg_reads := [], reg_writes := [] }
    else
      let d := dispatch slave frame
      { d with
        response := d.response.map fun response =>
          let crc := crc16 response
          response ++ [crc &&& 0xFF, (crc >>> 8) &&& 0xFF] }


/-! ## Vocabulary of the specification -/

/-- A frame body followed by its CRC, low byte first: the wire layout
`[address][function][payload][crc_lo][crc_hi]`. -/
def withCrc (body : List Nat) : List Nat :=
  body ++ [crc16 body % 256, crc16 body / 256]

/-- A CRC-valid frame addressed to the slave, in the words of the
specification: at least four bytes, the trailing two bytes are the low and the
high byte of the CRC of the bytes before them, the first byte is the address of
the slave. -/
def ValidFrameFor (slave : ModbusSlave) (frame : List Nat) (frame_length : Nat) : Prop :=
  4 ≤ frame_length ∧
  frame.getD (frame_length - 2) 0 = crc16 (frame.take (frame_length - 2)) % 256 ∧
  frame.getD (frame_length - 1) 0 = crc16 (frame.take (frame_length - 2)) / 256 ∧
  frame.getD 0 0 = slave.address

instance (slave : ModbusSlave) (frame : List Nat) (frame_length : Nat) :
    Decidable (ValidFrameFor slave frame frame_length) := by
  unfold ValidFrameFor
  infer_instance

/-- The body of a `ReadHoldingRegisters` request in the words of the
specification: address, `0x03`, start address and quantity big-endian. -/
def readRequest (address start_addr quantity : Nat) : List Nat :=
  [address, 0x03, start_addr / 256, start_addr % 256, quantity / 256, quantity % 256]

/-- The body of a `WriteSingleRegister` request in the words of the
specification: address, `0x06`, register address and value big-endian. -/
def writeSingleRequest (address addr value : Nat) : List Nat :=
  [address, 0x06, addr / 256, addr % 256, value / 256, value % 256]

/-- The body of a successful `ReadHoldingRegisters` response in the words of the
specification: address, `0x03`, the byte count `2 * quantity`, then the
registers `start_addr .. start_addr + quantity - 1` of the store, each as high
byte, low byte. -/
def readResponse (slave : ModbusSlave) (start_addr quantity : Nat) : List Nat :=
  [slave.address, 0x03, 2 * quantity] ++
    (List.range quantity).flatMap (fun i =>
      [slave.holding_registers.getD (start_addr + i) 0 / 256,
       slave.holding_registers.getD (start_addr + i) 0 % 256])

/-- The store of the scenario of the specification: a slave of address 1,
initialised, with `holding_registers[10] = 1234`. -/
def scenarioSlave : ModbusSlave :=
  { ModbusSlave_Init 1 with
    holding_registers := (ModbusSlave_Init 1).holding_registers.set 10 1234 }

/-- The master of the scenario of the specification: slave address 1, and a
transport whose every poll returns the response `01 03 02 04 D2 3A D9`. -/
def scenarioMaster : ModbusMaster :=
  ModbusMaster_Init 1 (fun _ => [0x01, 0x03, 0x02, 0x04, 0xD2, 0x3A, 0xD9])

/-- The `i`-th register value carried by a `ReadHoldingRegisters` response, in
the words of the specification: the big-endian 16-bit value at payload bytes
`1 + 2i` and `2 + 2i`, which are the frame bytes `3 + 2i` and `4 + 2i`. -/
def registerValue (response : List Nat) (i : Nat) : Nat :=
  response.getD (3 + 2 * i) 0 * 256 + response.getD (4 + 2 * i) 0

/-- A master whose transport never delivers a byte and whose timeout is the
largest `uint32_t` value. -/
def silentMaster (slave_address : Nat) : ModbusMaster :=
  { slave_address := slave_address, timeout_ms := 4294967295, uart_receive := fun _ => [] }

/-- The frame with bit `b` of the byte at index `j` flipped. -/
def flipBit (frame : List Nat) (j b : Nat) : List Nat :=
  frame.set j (frame.getD j 0 ^^^ 2 ^ b)

/-- A NUL-terminated text in memory: the bytes of the text, none of them NUL,
the terminating NUL, then whatever follows in memory. -/
def cString (text rest : List Nat) : List Nat :=
  text ++ [0] ++ rest

/-- The start address field of a request, in the words of the specification:
`start = frame[2]*256 + frame[3]`. -/
def requestStart (frame : List Nat) : Nat :=
  frame.getD 2 0 * 256 + frame.getD 3 0

/-- The byte count field of a custom string request: `byteCount = frame[4]`. -/
def requestByteCount (frame : List Nat) : Nat :=
  frame.getD 4 0

/-- The quantity field of a `ReadHoldingRegisters` request, in the words of the
specification: `quantity = frame[4]*256 + frame[5]`. -/
def requestQuantity (frame : List Nat) : Nat :=
  frame.getD 4 0 * 256 + frame.getD 5 0

/-! ## Arithmetic of bytes and words -/

theorem and_0xFF (x : Nat) : x &&& 0xFF = x % 256 :=
  Nat.and_pow_two_sub_one_eq_mod x 8

theorem shiftRight_8 (x : Nat) : x >>> 8 = x / 256 :=
  Nat.shiftRight_eq_div_pow x 8

theorem shiftLeft_8_or (a b : Nat) (hb : b < 256) : (a <<< 8) ||| b = a * 256 + b := by
  have h := Nat.mul_add_lt_is_or (i := 8) (b := b) (by simpa using hb) a
  rw [Nat.shiftLeft_eq]
  norm_num at h ⊢
  rw [Nat.mul_comm a 256]
  exact h.symm

theorem and_0x80_ne_zero (x : Nat) : (x &&& 0x80) ≠ 0 ↔ x / 128 % 2 = 1 := by
  have h1 := Nat.and_two_pow x 7
  have h2 := @Nat.testBit_to_div_mod 7 x
  norm_num at h1 h2
  rw [h1, h2]
  by_cases h : x / 128 % 2 = 1 <;> simp [h]

theorem or_0x80_lt (x : Nat) (hx : x < 256) : (x ||| 0x80) < 256 :=
  Nat.or_lt_two_pow (n := 8) (by simpa using hx) (by norm_num)

/-! ## CRC engine -/

theorem crc16_bit_eq (c : Nat) : crc16_bit c = modbusCrcStep c := by
  unfold crc16_bit modbusCrcStep
  rw [Nat.and_one_is_mod, Nat.shiftRight_eq_div_pow]
  have : c % 2 = 0 ∨ c % 2 = 1 := by omega
  rcases this with h | h <;> simp [h]

theorem crc16_bits_eq (i c : Nat) : crc16_bits i c = modbusCrcStep^[i] c := by
  induction i generalizing c with
  | zero => rfl
  | succ i ih => rw [crc16_bits, ih, crc16_bit_eq, Function.iterate_succ_apply]

theorem modbusCrcStep_lt (c : Nat) (h : c < 65536) : modbusCrcStep c < 65536 := by
  unfold modbusCrcStep
  split
  · exact Nat.xor_lt_two_pow (n := 16) (by omega) (by norm_num)
  · omega

theorem modbusCrcStep_iterate_lt (k c : Nat) (h : c < 65536) :
    modbusCrcStep^[k] c < 65536 := by
  induction k generalizing c with
  | zero => simpa using h
  | succ k ih =>
    rw [Function.iterate_succ_apply]
    exact ih _ (modbusCrcStep_lt c h)

theorem crc16_byte_lt (crc b : Nat) (h : crc < 65536) : crc16_byte crc b < 65536 := by
  unfold crc16_byte
  rw [crc16_bits_eq]
  apply modbusCrcStep_iterate_lt
  exact Nat.xor_lt_two_pow (n := 16) (by simpa using h) (by norm_num; omega)

theorem crc16_snoc (b : List Nat) (x : Nat) :
    crc16 (b ++ [x]) = crc16_byte (crc16 b) x := by
  simp [crc16, List.foldl_append]

theorem crc16_lt (buffer : List Nat) : crc16 buffer < 65536 := by
  induction buffer using List.reverseRecOn with
  | nil => simp [crc16]
  | append_singleton l x ih =>
    rw [crc16_snoc]
    exact crc16_byte_lt _ _ ih

theorem crc16_lo_lt (buffer : List Nat) : crc16 buffer % 256 < 256 :=
  Nat.mod_lt _ (by norm_num)

theorem crc16_hi_lt (buffer : List Nat) : crc16 buffer / 256 < 256 := by
  have := crc16_lt buffer
  omega

/-- C1: `crc16` is the Modbus CRC-16 of the reference definition.  The empty
buffer gives `0xFFFF`; appending a byte `x` to a buffer `b` gives the value
obtained from `crc16 b XOR x` by eight applications of the reference step, and
every value on the way fits in 16 bits; the ASCII bytes of "123456789" give
`0x4B37`. -/
theorem crc16_reference (b : List Nat) (x : Nat) (hx : x < 256) :
    crc16 [] = 0xFFFF ∧
    crc16 (b ++ [x]) = modbusCrcStep^[8] (crc16 b ^^^ x) ∧
    (∀ k, k ≤ 8 → modbusCrcStep^[k] (crc16 b ^^^ x) < 65536) ∧
    crc16 [0x31, 0x32, 0x33, 0x34, 0x35, 0x36, 0x37, 0x38, 0x39] = 0x4B37 := by
  have hx16 : x % 65536 = x := Nat.mod_eq_of_lt (by omega)
  refine ⟨rfl, ?_, ?_, by decide⟩
  · rw [crc16_snoc, crc16_byte, crc16_bits_eq, hx16]
  · intro k _
    apply modbusCrcStep_iterate_lt
    exact Nat.xor_lt_two_pow (n := 16) (by simpa using crc16_lt b) (by norm_num; omega)

/-- Witness of C1 at the buffer `01 03` and the byte `0x0A`. -/
theorem crc16_reference_witness :
    crc16 ([0x01, 0x03] ++ [0x0A]) = modbusCrcStep^[8] (crc16 [0x01, 0x03] ^^^ 0x0A) :=
  (crc16_reference [0x01, 0x03] 0x0A (by decide)).2.1


/-! ## Frames -/

theorem getD_append_add (body tail : List Nat) (i : Nat) :
    (body ++ tail).getD (body.length + i) 0 = tail.getD i 0 := by
  rw [List.getD_eq_getElem?_getD, List.getD_eq_getElem?_getD,
    List.getElem?_append_right (Nat.le_add_right _ _), Nat.add_sub_cancel_left]

theorem frame_take_body (body : List Nat) (lo hi : Nat) (rest : List Nat) :
    (body ++ [lo, hi] ++ rest).take ((body ++ [lo, hi]).length - 2) = body := by
  simp [List.take_append_eq_append_take]

theorem frame_getD_lo (body : List Nat) (lo hi : Nat) (rest : List Nat) :
    (body ++ [lo, hi] ++ rest).getD ((body ++ [lo, hi]).length - 2) 0 = lo := by
  have h : (body ++ [lo, hi]).length - 2 = body.length + 0 := by simp
  rw [h, List.append_assoc, getD_append_add]
  rfl

theorem frame_getD_hi (body : List Nat) (lo hi : Nat) (rest : List Nat) :
    (body ++ [lo, hi] ++ rest).getD ((body ++ [lo, hi]).length - 1) 0 = hi := by
  have h : (body ++ [lo, hi]).length - 1 = body.length + 1 := by simp
  rw [h, List.append_assoc, getD_append_add]
  rfl

theorem dispatch_response_ne_none (slave : ModbusSlave) (frame : List Nat) :
    (dispatch slave frame).response ≠ none := by
  simp only [dispatch]
  split_ifs <;> simp

theorem crc_bytes (body : List Nat) :
    body ++ [crc16 body &&& 0xFF, (crc16 body >>> 8) &&& 0xFF] = withCrc body := by
  have h := crc16_lt body
  rw [withCrc, and_0xFF, and_0xFF, shiftRight_8, Nat.mod_eq_of_lt (a := crc16 body / 256) (by omega)]

theorem ProcessRequest_of_valid (slave : ModbusSlave) (frame : List Nat) (frame_length : Nat)
    (h : ValidFrameFor slave frame frame_length) :
    ModbusSlave_ProcessRequest slave frame frame_length =
      { dispatch slave frame with response := (dispatch slave frame).response.map withCrc } := by
  obtain ⟨h4, hlo, hhi, ha⟩ := h
  simp only [ModbusSlave_ProcessRequest, crc_bytes]
  have hcrc : ¬ (frame.getD (frame_length - 2) 0 ≠
        (crc16 (frame.take (frame_length - 2)) &&& 0xFF) ∨
      frame.getD (frame_length - 1) 0 ≠ (crc16 (frame.take (frame_length - 2)) >>> 8)) := by
    rw [and_0xFF, shiftRight_8, hlo, hhi]
    simp
  have haddr : ¬ frame.getD 0 0 ≠ slave.address := by rw [ha]; simp
  rw [if_neg (by omega), if_neg hcrc, if_neg haddr]

theorem validFrameFor_withCrc (slave : ModbusSlave) (body rest : List Nat)
    (hlen : 2 ≤ body.length) (ha : body.getD 0 0 = slave.address) :
    ValidFrameFor slave (withCrc body ++ rest) (withCrc body).length := by
  unfold withCrc
  refine ⟨by simp; omega, ?_, ?_, ?_⟩
  · rw [frame_take_body, frame_getD_lo]
  · rw [frame_take_body, frame_getD_hi]
  · rw [← ha, List.append_assoc, List.getD_append _ _ _ _ (by omega)]

theorem word_of_bytes (hi lo : Nat) (hhi : hi < 256) (hlo : lo < 256) :
    ((hi <<< 8) ||| lo) % 65536 = hi * 256 + lo := by
  rw [shiftLeft_8_or hi lo hlo]
  omega

theorem readRegisters_eq (holding_registers : List Nat) (start_addr quantity : Nat)
    (response : List Nat) :
    readRegisters holding_registers start_addr quantity response =
      (response ++ (List.range quantity).flatMap (fun i =>
          [(holding_registers.getD (start_addr + i) 0 >>> 8) % 256,
           holding_registers.getD (start_addr + i) 0 &&& 0xFF]),
       (List.range quantity).flatMap (fun i => [start_addr + i, start_addr + i])) := by
  unfold readRegisters
  induction quantity with
  | zero => simp
  | succ n ih =>
    rw [List.range_succ, List.foldl_append, ih]
    simp [List.flatMap_append]

/-- The `MODBUS_FC_READ_HOLDING_REGISTERS` case of the dispatch on a frame whose
address fields are bytes. -/
theorem dispatch_read (slave : ModbusSlave) (frame : List Nat)
    (hfn : frame.getD 1 0 = 0x03)
    (h2 : frame.getD 2 0 < 256) (h3 : frame.getD 3 0 < 256)
    (h4 : frame.getD 4 0 < 256) (h5 : frame.getD 5 0 < 256) :
    dispatch slave frame =
      if frame.getD 2 0 * 256 + frame.getD 3 0 + (frame.getD 4 0 * 256 + frame.getD 5 0) > 125
      then
        { slave := slave, response := some [slave.address, 0x83, 0x02],
          reg_reads := [], reg_writes := [] }
      else
        { slave := slave
          response := some
            (readRegisters slave.holding_registers (frame.getD 2 0 * 256 + frame.getD 3 0)
              (frame.getD 4 0 * 256 + frame.getD 5 0)
              [slave.address, 0x03, ((frame.getD 4 0 * 256 + frame.getD 5 0) * 2) % 256]).1
          reg_reads :=
            (readRegisters slave.holding_registers (frame.getD 2 0 * 256 + frame.getD 3 0)
              (frame.getD 4 0 * 256 + frame.getD 5 0)
              [slave.address, 0x03, ((frame.getD 4 0 * 256 + frame.getD 5 0) * 2) % 256]).2
          reg_writes := [] } := by
  simp only [dispatch]
  rw [if_pos hfn, word_of_bytes _ _ h2 h3, word_of_bytes _ _ h4 h5, hfn]
  rfl

/-- The `default` case of the dispatch. -/
theorem dispatch_default (slave : ModbusSlave) (frame : List Nat)
    (h03 : frame.getD 1 0 ≠ 0x03) (h16 : frame.getD 1 0 ≠ 0x16)
    (hfn : frame.getD 1 0 < 256) :
    dispatch slave frame =
      { slave := slave, response := some [slave.address, frame.getD 1 0 ||| 0x80, 0x01],
        reg_reads := [], reg_writes := [] } := by
  simp only [dispatch]
  rw [if_neg h03, if_neg h16, Nat.mod_eq_of_lt (or_0x80_lt _ hfn)]

theorem getD_lt_of_forall_mem (l : List Nat) (bound : Nat) (hb : 0 < bound)
    (h : ∀ r ∈ l, r < bound) (i : Nat) : l.getD i 0 < bound := by
  rw [List.getD_eq_getElem?_getD]
  by_cases hi : i < l.length
  · rw [List.getElem?_eq_getElem hi]
    exact h _ (List.getElem_mem hi)
  · rw [List.getElem?_eq_none (by omega)]
    exact hb

theorem readRequest_frame (slave : ModbusSlave) (start quantity : Nat) (rest : List Nat)
    (hs : start < 65536) (hq : quantity < 65536) :
    ModbusSlave_ProcessRequest slave (withCrc (readRequest slave.address start quantity) ++ rest) 8 =
      if start + quantity > 125 then
        { slave := slave, response := some (withCrc [slave.address, 0x83, 0x02]),
          reg_reads := [], reg_writes := [] }
      else
        { slave := slave
          response := some (withCrc
            (readRegisters slave.holding_registers start quantity
              [slave.address, 0x03, (quantity * 2) % 256]).1)
          reg_reads :=
            (readRegisters slave.holding_registers start quantity
              [slave.address, 0x03, (quantity * 2) % 256]).2
          reg_writes := [] } := by
  have hv := validFrameFor_withCrc slave (readRequest slave.address start quantity) rest
    (by simp [readRequest]) (by simp [readRequest])
  have hl : (withCrc (readRequest slave.address start quantity)).length = 8 := by
    simp [withCrc, readRequest]
  rw [hl] at hv
  rw [ProcessRequest_of_valid _ _ _ hv]
  have e1 : (withCrc (readRequest slave.address start quantity) ++ rest).getD 1 0 = 0x03 := by
    simp [withCrc, readRequest]
  have e2 : (withCrc (readRequest slave.address start quantity) ++ rest).getD 2 0 = start / 256 := by
    simp [withCrc, readRequest]
  have e3 : (withCrc (readRequest slave.address start quantity) ++ rest).getD 3 0 = start % 256 := by
    simp [withCrc, readRequest]
  have e4 : (withCrc (readRequest slave.address start quantity) ++ rest).getD 4 0 = quantity / 256 := by
    simp [withCrc, readRequest]
  have e5 : (withCrc (readRequest slave.address start quantity) ++ rest).getD 5 0 = quantity % 256 := by
    simp [withCrc, readRequest]
  rw [dispatch_read slave _ e1 (by rw [e2]; omega) (by rw [e3]; omega) (by rw [e4]; omega)
    (by rw [e5]; omega), e2, e3, e4, e5, Nat.div_add_mod' start 256, Nat.div_add_mod' quantity 256]
  split_ifs <;> rfl

/-! ## Master transaction -/

theorem master_transaction_sent (fuel : Nat) (ctx : ModbusMaster) (request : List Nat) :
    (master_transaction fuel ctx request).sent = withCrc request := by
  simp only [master_transaction, crc_bytes]

/-- The polling loop ends with the first non-empty poll, provided the polls
before it are no more than `timeout_ms`. -/
theorem awaitResponse_received (ctx : ModbusMaster) (response : List Nat) (k fuel : Nat) :
    ∀ polls start_time : Nat,
      start_time + k ≤ ctx.timeout_ms → ctx.timeout_ms < 4294967296 →
      (∀ j, j < k → ctx.uart_receive (polls + j) = []) →
      ctx.uart_receive (polls + k) = response → response ≠ [] →
      awaitResponse ctx (k + 1 + fuel) polls start_time =
        some (Polled.received response (polls + k)) := by
  induction k with
  | zero =>
    intro polls start_time _ _ _ hk hne
    have hlen : ¬ response.length = 0 := by
      intro h; exact hne (List.length_eq_zero.mp h)
    rw [Nat.zero_add, Nat.add_comm 1 fuel]
    simp only [awaitResponse]
    rw [Nat.add_zero] at hk
    rw [hk, if_neg hlen, Nat.add_zero]
  | succ k ih =>
    intro polls start_time hle hmax hempty hk hne
    have h0 : ctx.uart_receive polls = [] := by simpa using hempty 0 (by omega)
    have hfuel : k + 1 + 1 + fuel = (k + 1 + fuel) + 1 := by omega
    rw [hfuel]
    simp only [awaitResponse]
    rw [h0]
    have hst : (start_time + 1) % 4294967296 = start_time + 1 :=
      Nat.mod_eq_of_lt (by omega)
    rw [if_pos (by rfl), hst, if_neg (by omega)]
    have := ih (polls + 1) (start_time + 1) (by omega) hmax
      (fun j hj => by
        have := hempty (j + 1) (by omega)
        rwa [show polls + (j + 1) = polls + 1 + j by omega] at this)
      (by rwa [show polls + (k + 1) = polls + 1 + k by omega] at hk) hne
    rw [this]
    congr 2
    omega

theorem master_transaction_received (ctx : ModbusMaster) (request response : List Nat)
    (k fuel : Nat) (hk : k ≤ ctx.timeout_ms) (hmax : ctx.timeout_ms < 4294967296)
    (hempty : ∀ j, j < k → ctx.uart_receive j = [])
    (hrx : ctx.uart_receive k = response) (hne : response ≠ []) :
    (master_transaction (k + 1 + fuel) ctx request).finished =
      some { err := master_validate ctx response, response := response, delays := k } := by
  have h := awaitResponse_received ctx response k fuel 0 0 (by omega) hmax
    (fun j hj => by simpa using hempty j hj) (by simpa using hrx) hne
  simp only [master_transaction, h, Nat.zero_add]

theorem master_transaction_first_poll (ctx : ModbusMaster) (request response : List Nat)
    (fuel : Nat) (hrx : ctx.uart_receive 0 = response) (hne : response ≠ []) :
    (master_transaction (fuel + 1) ctx request).finished =
      some { err := master_validate ctx response, response := response, delays := 0 } := by
  have hlen : ¬ response.length = 0 := fun h => hne (List.length_eq_zero.mp h)
  simp only [master_transaction, awaitResponse]
  rw [hrx, if_neg hlen]

/-- The checks of `master_transaction`, in the order and the words of the
specification. -/
theorem master_validate_eq (ctx : ModbusMaster) (response : List Nat) :
    master_validate ctx response =
      if response.length < 4 then MODBUS_ERR_INVALID_DATA
      else if ¬ (response.getD (response.length - 2) 0 =
            crc16 (response.take (response.length - 2)) % 256 ∧
          response.getD (response.length - 1) 0 =
            crc16 (response.take (response.length - 2)) / 256) then
        MODBUS_ERR_CRC_MISMATCH
      else if response.getD 0 0 ≠ ctx.slave_address then MODBUS_ERR_INVALID_ADDRESS
      else if response.getD 1 0 / 128 % 2 = 1 then MODBUS_ERR_SLAVE_FAILURE
      else MODBUS_SUCCESS := by
  have hcrc := crc16_lt (response.take (response.length - 2))
  have e : ∀ a b c d : Nat, (a ≠ b ∨ c ≠ d) ↔ ¬ (a = b ∧ c = d) := by
    intro a b c d; tauto
  simp only [master_validate]
  rw [and_0xFF, and_0xFF, shiftRight_8,
    Nat.mod_eq_of_lt (a := crc16 (response.take (response.length - 2)) / 256) (by omega)]
  simp only [e, and_0x80_ne_zero]

/-- The checks of `master_transaction` on a frame that carries its own CRC. -/
theorem master_validate_withCrc (ctx : ModbusMaster) (body : List Nat)
    (hlen : 2 ≤ body.length) :
    master_validate ctx (withCrc body) =
      if body.getD 0 0 ≠ ctx.slave_address then MODBUS_ERR_INVALID_ADDRESS
      else if body.getD 1 0 / 128 % 2 = 1 then MODBUS_ERR_SLAVE_FAILURE
      else MODBUS_SUCCESS := by
  have hl : (withCrc body).length = body.length + 2 := by simp [withCrc]
  have htake : (withCrc body).take ((withCrc body).length - 2) = body := by
    simp [withCrc]
  have hlo : (withCrc body).getD ((withCrc body).length - 2) 0 = crc16 body % 256 := by
    have := frame_getD_lo body (crc16 body % 256) (crc16 body / 256) []
    simpa [withCrc] using this
  have hhi : (withCrc body).getD ((withCrc body).length - 1) 0 = crc16 body / 256 := by
    have := frame_getD_hi body (crc16 body % 256) (crc16 body / 256) []
    simpa [withCrc] using this
  have h0 : (withCrc body).getD 0 0 = body.getD 0 0 :=
    List.getD_append _ _ _ _ (by omega)
  have h1 : (withCrc body).getD 1 0 = body.getD 1 0 :=
    List.getD_append _ _ _ _ (by omega)
  rw [master_validate_eq, if_neg (by omega), htake, hlo, hhi, h0, h1, if_neg (by simp)]

/-! ## Claims -/

/-- C2: frame round trip.  For every address, function code and payload of at
most 250 bytes, the frame `[address, function] ++ payload ++ [crc_lo, crc_hi]` is
what `master_transaction` hands to the transport for that body, has at least 4
and at most 256 bytes, gets past the length and the CRC check of
`master_transaction` when the transport returns it (the call ends with the
outcome of the address and exception-bit checks, never with
`MODBUS_ERR_INVALID_DATA` or `MODBUS_ERR_CRC_MISMATCH`), gets past the length,
CRC and address checks of `ModbusSlave_ProcessRequest` for a slave of that
address (a response is built), and its bytes before the trailing two are the
address, the function code and the payload unchanged. -/
theorem frame_round_trip (ctx : ModbusMaster) (slave : ModbusSlave) (fuel : Nat)
    (address fn : Nat) (payload rest : List Nat) (hlen : payload.length ≤ 250) :
    (master_transaction fuel ctx ([address, fn] ++ payload)).sent =
        [address, fn] ++ payload ++
          [crc16 ([address, fn] ++ payload) % 256, crc16 ([address, fn] ++ payload) / 256] ∧
    4 ≤ (withCrc ([address, fn] ++ payload)).length ∧
    (withCrc ([address, fn] ++ payload)).length ≤ MODBUS_MAX_FRAME_SIZE ∧
    (ctx.uart_receive 0 = withCrc ([address, fn] ++ payload) →
      (master_transaction (fuel + 1) ctx ([address, fn] ++ payload)).finished =
        some
          { err :=
              if address ≠ ctx.slave_address then MODBUS_ERR_INVALID_ADDRESS
              else if fn / 128 % 2 = 1 then MODBUS_ERR_SLAVE_FAILURE
              else MODBUS_SUCCESS
            response := withCrc ([address, fn] ++ payload)
            delays := 0 }) ∧
    (slave.address = address →
      (ModbusSlave_ProcessRequest slave (withCrc ([address, fn] ++ payload) ++ rest)
        (withCrc ([address, fn] ++ payload)).length).response ≠ none) ∧
    (withCrc ([address, fn] ++ payload)).take
        ((withCrc ([address, fn] ++ payload)).length - 2) = [address, fn] ++ payload := by
  have hbody : 2 ≤ ([address, fn] ++ payload).length := by simp
  refine ⟨?_, ?_, ?_, ?_, ?_, ?_⟩
  · rw [master_transaction_sent]; rfl
  · simp [withCrc]
  · simp only [withCrc, MODBUS_MAX_FRAME_SIZE, List.length_append, List.length_cons,
      List.length_nil]
    omega
  · intro hrx
    rw [master_transaction_first_poll ctx _ _ fuel hrx (by simp [withCrc]),
      master_validate_withCrc ctx _ hbody]
    rfl
  · intro ha
    have hv := validFrameFor_withCrc slave ([address, fn] ++ payload) rest hbody
      (by rw [ha]; rfl)
    rw [ProcessRequest_of_valid _ _ _ hv]
    have := dispatch_response_ne_none slave (withCrc ([address, fn] ++ payload) ++ rest)
    cases hd : (dispatch slave (withCrc ([address, fn] ++ payload) ++ rest)).response with
    | none => exact absurd hd this
    | some r => simp [hd]
  · simp [withCrc]

/-- Witness of C2: address 1, function `0x03`, payload `00 0A 00 01`. -/
theorem frame_round_trip_witness :
    (master_transaction 0 scenarioMaster [1, 3, 0, 10, 0, 1]).sent =
      [1, 3, 0, 10, 0, 1, 0xA4, 0x08] ∧
    (ModbusSlave_ProcessRequest scenarioSlave
      (withCrc ([1, 3] ++ [0, 10, 0, 1]) ++ [])
      (withCrc ([1, 3] ++ [0, 10, 0, 1])).length).response ≠ none :=
  ⟨(frame_round_trip scenarioMaster scenarioSlave 0 1 3 [0, 10, 0, 1] [] (by decide)).1,
   (frame_round_trip scenarioMaster scenarioSlave 0 1 3 [0, 10, 0, 1] []
      (by decide)).2.2.2.2.1 rfl⟩

theorem readRegisters_response (slave : ModbusSlave) (start quantity : Nat)
    (hq : quantity ≤ 125) (hregs : ∀ r ∈ slave.holding_registers, r < 65536) :
    (readRegisters slave.holding_registers start quantity
        [slave.address, 0x03, (quantity * 2) % 256]).1 = readResponse slave start quantity := by
  have hf : (fun i => [(slave.holding_registers.getD (start + i) 0 >>> 8) % 256,
        slave.holding_registers.getD (start + i) 0 &&& 0xFF]) =
      (fun i => [slave.holding_registers.getD (start + i) 0 / 256,
        slave.holding_registers.getD (start + i) 0 % 256]) := by
    funext i
    have := getD_lt_of_forall_mem slave.holding_registers 65536 (by norm_num) hregs (start + i)
    rw [shiftRight_8, and_0xFF, Nat.mod_eq_of_lt (a := _ / 256) (by omega)]
  rw [readRegisters_eq, hf, readResponse, Nat.mod_eq_of_lt (by omega), Nat.mul_comm]

/-- The slave's answer to an in-range `ReadHoldingRegisters` request. -/
theorem readRequest_response (slave : ModbusSlave) (start quantity : Nat) (rest : List Nat)
    (hq : quantity ≤ 125) (hs : start + quantity ≤ 125)
    (hregs : ∀ r ∈ slave.holding_registers, r < 65536) :
    ModbusSlave_ProcessRequest slave
        (withCrc (readRequest slave.address start quantity) ++ rest) 8 =
      { slave := slave
        response := some (withCrc (readResponse slave start quantity))
        reg_reads := (List.range quantity).flatMap (fun i => [start + i, start + i])
        reg_writes := [] } := by
  have h := readRequest_frame slave start quantity rest (by omega) (by omega)
  rw [if_neg (by omega), readRegisters_response slave start quantity hq hregs,
    readRegisters_eq] at h
  exact h

theorem length_flatMap_pair (g h : Nat → Nat) (n : Nat) :
    ((List.range n).flatMap (fun j => [g j, h j])).length = 2 * n := by
  induction n with
  | zero => simp
  | succ n ih =>
    rw [List.range_succ, List.flatMap_append, List.length_append, ih]
    simp
    omega

/-- C3: slave read success.  For every store of 16-bit registers, every
quantity in [1,125] and every start with `start + quantity ≤ 125`, the dispatch
of `ModbusSlave_ProcessRequest` on the CRC-valid `ReadHoldingRegisters` frame
addressed to the slave builds the response
`[address, 0x03, 2*quantity, hi(r_0), lo(r_0), ..., crc_lo, crc_hi]` with
`r_i = holding_registers[start + i]`: exactly `quantity` big-endian values equal
to the contents of the store.  The store is unchanged, the registers read are
`start .. start + quantity - 1`, and none is written. -/
theorem slave_read_success (slave : ModbusSlave) (start quantity : Nat) (rest : List Nat)
    (_hq1 : 1 ≤ quantity) (hq : quantity ≤ 125) (hs : start + quantity ≤ 125)
    (hregs : ∀ r ∈ slave.holding_registers, r < 65536) :
    ModbusSlave_ProcessRequest slave
        (withCrc [slave.address, 0x03, start / 256, start % 256,
          quantity / 256, quantity % 256] ++ rest) 8 =
      { slave := slave
        response := some (withCrc ([slave.address, 0x03, 2 * quantity] ++
          (List.range quantity).flatMap (fun i =>
            [slave.holding_registers.getD (start + i) 0 / 256,
             slave.holding_registers.getD (start + i) 0 % 256])))
        reg_reads := (List.range quantity).flatMap (fun i => [start + i, start + i])
        reg_writes := [] } ∧
    ((List.range quantity).flatMap (fun i =>
        [slave.holding_registers.getD (start + i) 0 / 256,
         slave.holding_registers.getD (start + i) 0 % 256])).length = 2 * quantity ∧
    ∀ i, i < quantity →
      slave.holding_registers.getD (start + i) 0 / 256 < 256 ∧
      slave.holding_registers.getD (start + i) 0 / 256 * 256 +
        slave.holding_registers.getD (start + i) 0 % 256 =
          slave.holding_registers.getD (start + i) 0 := by
  refine ⟨?_, ?_, ?_⟩
  · have h := readRequest_response slave start quantity rest hq hs hregs
    rw [readRequest, readResponse] at h
    exact h
  · exact length_flatMap_pair _ _ quantity
  · intro i _
    have := getD_lt_of_forall_mem slave.holding_registers 65536 (by norm_num) hregs (start + i)
    omega

/-- Witness of C3: the store with `holding_registers[10] = 1234`, start 10,
quantity 1. -/
theorem slave_read_success_witness :
    (ModbusSlave_ProcessRequest scenarioSlave [1, 3, 0, 10, 0, 1, 0xA4, 0x08] 8).response =
      some [1, 3, 2, 0x04, 0xD2, 0x3A, 0xD9] := by
  have h := congrArg SlaveOutcome.response
    (slave_read_success scenarioSlave 10 1 [] (by decide) (by decide) (by decide)
      (by decide)).1
  have e : withCrc [scenarioSlave.address, 0x03, 10 / 256, 10 % 256, 1 / 256, 1 % 256] ++ [] =
      [1, 3, 0, 10, 0, 1, 0xA4, 0x08] := by decide
  rw [e] at h
  rw [h]
  decide

/-- C4: for every 16-bit start and every 16-bit quantity with
`start + quantity > 125`, the sum taken as a natural number (sums above 65535
included), the dispatch of `ModbusSlave_ProcessRequest` on the CRC-valid
`ReadHoldingRegisters` frame addressed to the slave builds the exception
response `[address, 0x83, 0x02, crc_lo, crc_hi]`, reads no holding register,
writes none, and leaves the store unchanged. -/
theorem slave_read_illegal_address (slave : ModbusSlave) (start quantity : Nat)
    (rest : List Nat) (hs : start < 65536) (hq : quantity < 65536)
    (h : start + quantity > 125) :
    ModbusSlave_ProcessRequest slave
        (withCrc [slave.address, 0x03, start / 256, start % 256,
          quantity / 256, quantity % 256] ++ rest) 8 =
      { slave := slave
        response := some ([slave.address, 0x83, 0x02] ++
          [crc16 [slave.address, 0x83, 0x02] % 256, crc16 [slave.address, 0x83, 0x02] / 256])
        reg_reads := []
        reg_writes := [] } := by
  have h1 := readRequest_frame slave start quantity rest hs hq
  rw [if_pos h] at h1
  exact h1

/-- Witness of C4: start 65535 and quantity 65535, whose sum exceeds 16 bits. -/
theorem slave_read_illegal_address_witness :
    (ModbusSlave_ProcessRequest scenarioSlave
        (withCrc [scenarioSlave.address, 0x03, 65535 / 256, 65535 % 256,
          65535 / 256, 65535 % 256] ++ []) 8).reg_reads = [] :=
  congrArg SlaveOutcome.reg_reads
    (slave_read_illegal_address scenarioSlave 65535 65535 [] (by decide) (by decide)
      (by decide))

/-- C5: for every CRC-valid frame addressed to the slave whose function code is
a byte not in `{0x03, 0x06, 0x10, 0x16}`, the dispatch of
`ModbusSlave_ProcessRequest` builds the exception response
`[address, function | 0x80, 0x01, crc_lo, crc_hi]`, leaves the store unchanged
and touches no holding register. -/
theorem slave_illegal_function (slave : ModbusSlave) (frame : List Nat) (frame_length : Nat)
    (hv : ValidFrameFor slave frame frame_length) (hfn : frame.getD 1 0 < 256)
    (hcode : frame.getD 1 0 ∉ [0x03, 0x06, 0x10, 0x16]) :
    ModbusSlave_ProcessRequest slave frame frame_length =
      { slave := slave
        response := some ([slave.address, frame.getD 1 0 ||| 0x80, 0x01] ++
          [crc16 [slave.address, frame.getD 1 0 ||| 0x80, 0x01] % 256,
           crc16 [slave.address, frame.getD 1 0 ||| 0x80, 0x01] / 256])
        reg_reads := []
        reg_writes := [] } := by
  have h03 : frame.getD 1 0 ≠ 0x03 := fun h => hcode (by rw [h]; decide)
  have h16 : frame.getD 1 0 ≠ 0x16 := fun h => hcode (by rw [h]; decide)
  rw [ProcessRequest_of_valid slave frame frame_length hv,
    dispatch_default slave frame h03 h16 hfn]
  rfl

/-- Witness of C5: the declared but unimplemented code `0x01` (read coils). -/
theorem slave_illegal_function_witness :
    ModbusSlave_ProcessRequest scenarioSlave [1, 0x01, 0x00, 0x00, 0x00, 0x08, 0x3D, 0xCC] 8 =
      { slave := scenarioSlave
        response := some [1, 0x81, 0x01, 0x81, 0x90]
        reg_reads := []
        reg_writes := [] } :=
  (slave_illegal_function scenarioSlave [1, 0x01, 0x00, 0x00, 0x00, 0x08, 0x3D, 0xCC] 8
    (by decide) (by decide) (by decide)).trans (by decide)

/-- C9: silent discard.  For every inbound frame whose length is below 4, or
whose trailing two bytes are not the low and high byte of the CRC of the bytes
before them, or whose first byte differs from the address of the slave,
`ModbusSlave_ProcessRequest` builds no response, leaves every field of the slave
unchanged and touches no holding register. -/
theorem slave_silent_discard (slave : ModbusSlave) (frame : List Nat) (frame_length : Nat)
    (h : frame_length < 4 ∨
      ¬ (frame.getD (frame_length - 2) 0 = crc16 (frame.take (frame_length - 2)) % 256 ∧
         frame.getD (frame_length - 1) 0 = crc16 (frame.take (frame_length - 2)) / 256) ∨
      frame.getD 0 0 ≠ slave.address) :
    ModbusSlave_ProcessRequest slave frame frame_length =
      { slave := slave, response := none, reg_reads := [], reg_writes := [] } := by
  simp only [ModbusSlave_ProcessRequest]
  rw [and_0xFF, shiftRight_8]
  split_ifs <;> first | rfl | (exfalso; rcases h with h | h | h <;> omega)

/-- Witness of C9: a frame addressed to slave 1 whose CRC high byte is wrong. -/
theorem slave_silent_discard_witness :
    ModbusSlave_ProcessRequest scenarioSlave [1, 3, 0, 10, 0, 1, 0xA4, 0x09] 8 =
      { slave := scenarioSlave, response := none, reg_reads := [], reg_writes := [] } :=
  slave_silent_discard scenarioSlave [1, 3, 0, 10, 0, 1, 0xA4, 0x09] 8
    (Or.inr (Or.inl (by decide)))


/-! ## Register unpacking on the master side -/

theorem unpackRegisters_apply (response : List Nat) (values : Nat → Nat) (i : Nat) :
    unpackRegisters response values i =
      if i < response.getD 2 0 / 2 then
        ((response.getD (3 + i * 2) 0 <<< 8) ||| response.getD (4 + i * 2) 0) % 65536
      else values i := by
  simp only [unpackRegisters]
  generalize response.getD 2 0 / 2 = n
  induction n with
  | zero => simp
  | succ n ih =>
    rw [List.range_succ, List.foldl_append, List.foldl_cons, List.foldl_nil]
    by_cases h : i = n
    · subst h
      rw [Function.update_same, if_pos (by omega)]
    · rw [Function.update_noteq h, ih]
      by_cases h2 : i < n
      · rw [if_pos h2, if_pos (by omega)]
      · rw [if_neg h2, if_neg (by omega)]

theorem getD_flatMap_pair (g h : Nat → Nat) (n i : Nat) (hi : i < n) :
    ((List.range n).flatMap (fun j => [g j, h j])).getD (2 * i) 0 = g i ∧
    ((List.range n).flatMap (fun j => [g j, h j])).getD (2 * i + 1) 0 = h i := by
  induction n with
  | zero => omega
  | succ n ih =>
    rw [List.range_succ, List.flatMap_append]
    by_cases h2 : i < n
    · have hl := length_flatMap_pair g h n
      rw [List.getD_append _ _ _ _ (by omega), List.getD_append _ _ _ _ (by omega)]
      exact ih h2
    · have hin : i = n := by omega
      subst hin
      have hl := length_flatMap_pair g h i
      have e0 : 2 * i = ((List.range i).flatMap (fun j => [g j, h j])).length + 0 := by omega
      have e1 : 2 * i + 1 = ((List.range i).flatMap (fun j => [g j, h j])).length + 1 := by
        omega
      constructor
      · rw [e0, getD_append_add]; simp
      · rw [e1, getD_append_add]; simp

theorem readResponse_length (slave : ModbusSlave) (start quantity : Nat) :
    (readResponse slave start quantity).length = 3 + 2 * quantity := by
  rw [readResponse, List.length_append, length_flatMap_pair]
  rfl

theorem withCrc_getD (body : List Nat) (i : Nat) (hi : i < body.length) :
    (withCrc body).getD i 0 = body.getD i 0 :=
  List.getD_append _ _ _ _ hi

theorem readResponse_getD (slave : ModbusSlave) (start quantity i : Nat) (hi : i < quantity) :
    (withCrc (readResponse slave start quantity)).getD 2 0 = 2 * quantity ∧
    (withCrc (readResponse slave start quantity)).getD (3 + i * 2) 0 =
      slave.holding_registers.getD (start + i) 0 / 256 ∧
    (withCrc (readResponse slave start quantity)).getD (4 + i * 2) 0 =
      slave.holding_registers.getD (start + i) 0 % 256 := by
  have hl := readResponse_length slave start quantity
  have hp := getD_flatMap_pair
    (fun j => slave.holding_registers.getD (start + j) 0 / 256)
    (fun j => slave.holding_registers.getD (start + j) 0 % 256) quantity i hi
  have e3 : 3 + i * 2 = [slave.address, 0x03, 2 * quantity].length + 2 * i := by
    simp; omega
  have e4 : 4 + i * 2 = [slave.address, 0x03, 2 * quantity].length + (2 * i + 1) := by
    simp; omega
  refine ⟨?_, ?_, ?_⟩
  · rw [withCrc_getD _ _ (by omega)]; simp [readResponse]
  · rw [withCrc_getD _ _ (by omega), readResponse, e3, getD_append_add]
    exact hp.1
  · rw [withCrc_getD _ _ (by omega), readResponse, e4, getD_append_add]
    exact hp.2

theorem ReadHoldingRegisters_sent (fuel : Nat) (ctx : ModbusMaster)
    (start_addr quantity : Nat) (values : Nat → Nat)
    (hs : start_addr < 65536) (hq : quantity < 65536) :
    (ModbusMaster_ReadHoldingRegisters fuel ctx start_addr quantity values).sent =
      withCrc (readRequest ctx.slave_address start_addr quantity) := by
  simp only [ModbusMaster_ReadHoldingRegisters, master_transaction_sent]
  rw [shiftRight_8, shiftRight_8, and_0xFF, and_0xFF,
    Nat.mod_eq_of_lt (a := start_addr / 256) (by omega),
    Nat.mod_eq_of_lt (a := quantity / 256) (by omega)]
  rfl

theorem ReadHoldingRegisters_finished (ctx : ModbusMaster) (start_addr quantity : Nat)
    (values : Nat → Nat) (response : List Nat) (k fuel : Nat)
    (hk : k ≤ ctx.timeout_ms) (hmax : ctx.timeout_ms < 4294967296)
    (hempty : ∀ j, j < k → ctx.uart_receive j = [])
    (hrx : ctx.uart_receive k = response) (hne : response ≠ [])
    (hok : master_validate ctx response = MODBUS_SUCCESS) :
    (ModbusMaster_ReadHoldingRegisters (k + 1 + fuel) ctx start_addr quantity values).finished =
      some (MODBUS_SUCCESS, unpackRegisters response values) := by
  simp only [ModbusMaster_ReadHoldingRegisters]
  rw [master_transaction_received ctx _ response k fuel hk hmax hempty hrx hne]
  simp [hok]

/-- C6: end-to-end read.  For every slave store of 16-bit registers, every
quantity in [1,125] and start with `start + quantity ≤ 125`, and a master whose
`slave_address` is the address `a` of the slave: the bytes
`ModbusMaster_ReadHoldingRegisters` sends are
`[a, 0x03, hi(start), lo(start), hi(quantity), lo(quantity), crc_lo, crc_hi]`;
when the transport hands back, at its first non-empty poll, the response that
`ModbusSlave_ProcessRequest` builds for these bytes, that response is
`[a, 0x03, 2*quantity, registers..., crc_lo, crc_hi]` and the call returns
`MODBUS_SUCCESS` with `values[i] = holding_registers[start + i]` for every
`i < quantity`, the other entries of `values` untouched. -/
theorem end_to_end_read (ctx : ModbusMaster) (slave : ModbusSlave)
    (start quantity : Nat) (values : Nat → Nat) (k fuel : Nat)
    (ha : ctx.slave_address = slave.address)
    (hq1 : 1 ≤ quantity) (hq : quantity ≤ 125) (hs : start + quantity ≤ 125)
    (hregs : ∀ r ∈ slave.holding_registers, r < 65536)
    (hk : k ≤ ctx.timeout_ms) (hmax : ctx.timeout_ms < 4294967296)
    (hempty : ∀ j, j < k → ctx.uart_receive j = [])
    (hrx : (ModbusSlave_ProcessRequest slave
        (ModbusMaster_ReadHoldingRegisters (k + 1 + fuel) ctx start quantity values).sent
        8).response = some (ctx.uart_receive k)) :
    (ModbusMaster_ReadHoldingRegisters (k + 1 + fuel) ctx start quantity values).sent =
      [slave.address, 0x03, start / 256, start % 256, quantity / 256, quantity % 256] ++
        [crc16 [slave.address, 0x03, start / 256, start % 256,
            quantity / 256, quantity % 256] % 256,
         crc16 [slave.address, 0x03, start / 256, start % 256,
            quantity / 256, quantity % 256] / 256] ∧
    ctx.uart_receive k = withCrc (readResponse slave start quantity) ∧
    ∃ vals : Nat → Nat,
      (ModbusMaster_ReadHoldingRegisters (k + 1 + fuel) ctx start quantity values).finished =
        some (MODBUS_SUCCESS, vals) ∧
      ∀ i, vals i =
        if i < quantity then slave.holding_registers.getD (start + i) 0 else values i := by
  have hsent := ReadHoldingRegisters_sent (k + 1 + fuel) ctx start quantity values
    (by omega) (by omega)
  rw [ha] at hsent
  have hresp := readRequest_response slave start quantity [] hq hs hregs
  rw [List.append_nil] at hresp
  have hrx2 : ctx.uart_receive k = withCrc (readResponse slave start quantity) := by
    rw [hsent] at hrx
    have h := congrArg SlaveOutcome.response hresp
    rw [hrx] at h
    exact Option.some.inj h
  refine ⟨hsent, hrx2, unpackRegisters (ctx.uart_receive k) values, ?_, ?_⟩
  · have hl := readResponse_length slave start quantity
    apply ReadHoldingRegisters_finished ctx start quantity values _ k fuel hk hmax hempty rfl
    · rw [hrx2]; simp [withCrc]
    · rw [hrx2, master_validate_withCrc ctx _ (by omega)]
      have h0 : (readResponse slave start quantity).getD 0 0 = ctx.slave_address := by
        rw [ha]; rfl
      have h1 : (readResponse slave start quantity).getD 1 0 = 0x03 := rfl
      rw [h0, h1]
      simp
  · intro i
    rw [unpackRegisters_apply, hrx2]
    by_cases hi : i < quantity
    · obtain ⟨e2, e3, e4⟩ := readResponse_getD slave start quantity i hi
      have hr := getD_lt_of_forall_mem slave.holding_registers 65536 (by norm_num) hregs
        (start + i)
      rw [e2, e3, e4, if_pos (by omega), if_pos hi,
        word_of_bytes _ _ (by omega) (Nat.mod_lt _ (by norm_num))]
      omega
    · have e2 := (readResponse_getD slave start quantity 0 (by omega)).1
      rw [e2, if_neg (by omega), if_neg hi]

/-- Witness of C6: the scenario of the specification, address 1,
`holding_registers[10] = 1234`, start 10, quantity 1. -/
theorem end_to_end_read_witness :
    (ModbusMaster_ReadHoldingRegisters 1 scenarioMaster 10 1 (fun _ => 0)).sent =
      [0x01, 0x03, 0x00, 0x0A, 0x00, 0x01, 0xA4, 0x08] ∧
    scenarioMaster.uart_receive 0 = [0x01, 0x03, 0x02, 0x04, 0xD2, 0x3A, 0xD9] ∧
    ∃ vals : Nat → Nat,
      (ModbusMaster_ReadHoldingRegisters 1 scenarioMaster 10 1 (fun _ => 0)).finished =
        some (MODBUS_SUCCESS, vals) ∧ vals 0 = 1234 := by
  obtain ⟨h1, _, vals, h3, h4⟩ :=
    end_to_end_read scenarioMaster scenarioSlave 10 1 (fun _ => 0) 0 0 rfl (by decide)
      (by decide) (by decide) (by decide) (by decide) (by decide)
      (fun j hj => absurd hj (Nat.not_lt_zero j)) (by decide)
  exact ⟨h1.trans (by decide), rfl, vals, h3, (h4 0).trans (by decide)⟩

/-- C7: master response validation.  When the first non-empty poll of the
transport (after `k ≤ timeout_ms` empty ones) returns the byte sequence `resp`
of length `n`, `master_transaction` returns exactly: `MODBUS_ERR_INVALID_DATA`
if `n < 4`; otherwise `MODBUS_ERR_CRC_MISMATCH` if `resp[n-2]`, `resp[n-1]` are
not the low and high byte of `crc16(resp[0..n-2))`; otherwise
`MODBUS_ERR_INVALID_ADDRESS` if `resp[0]` differs from `ctx.slave_address`;
otherwise `MODBUS_ERR_SLAVE_FAILURE` if `resp[1]` has bit `0x80` set; otherwise
`MODBUS_SUCCESS`. -/
theorem master_response_validation (ctx : ModbusMaster) (request resp : List Nat)
    (k fuel : Nat) (hk : k ≤ ctx.timeout_ms) (hmax : ctx.timeout_ms < 4294967296)
    (hempty : ∀ j, j < k → ctx.uart_receive j = [])
    (hrx : ctx.uart_receive k = resp) (hne : resp ≠ []) :
    (master_transaction (k + 1 + fuel) ctx request).finished =
      some
        { err :=
            if resp.length < 4 then MODBUS_ERR_INVALID_DATA
            else if ¬ (resp.getD (resp.length - 2) 0 =
                  crc16 (resp.take (resp.length - 2)) % 256 ∧
                resp.getD (resp.length - 1) 0 =
                  crc16 (resp.take (resp.length - 2)) / 256) then
              MODBUS_ERR_CRC_MISMATCH
            else if resp.getD 0 0 ≠ ctx.slave_address then MODBUS_ERR_INVALID_ADDRESS
            else if resp.getD 1 0 / 128 % 2 = 1 then MODBUS_ERR_SLAVE_FAILURE
            else MODBUS_SUCCESS
          response := resp
          delays := k } := by
  rw [master_transaction_received ctx request resp k fuel hk hmax hempty hrx hne,
    master_validate_eq]

/-- Witness of C7: an exception response with a valid CRC from the addressed
slave, received at the third poll, gives `MODBUS_ERR_SLAVE_FAILURE`. -/
theorem master_response_validation_witness :
    (master_transaction 3
        { slave_address := 1, timeout_ms := 1000,
          uart_receive := fun k => if k = 2 then [0x01, 0x83, 0x02, 0xC0, 0xF1] else [] }
        [0x01, 0x03, 0x00, 0x0A, 0x00, 0x01]).finished =
      some { err := MODBUS_ERR_SLAVE_FAILURE, response := [0x01, 0x83, 0x02, 0xC0, 0xF1],
             delays := 2 } :=
  (master_response_validation
    { slave_address := 1, timeout_ms := 1000,
      uart_receive := fun k => if k = 2 then [0x01, 0x83, 0x02, 0xC0, 0xF1] else [] }
    [0x01, 0x03, 0x00, 0x0A, 0x00, 0x01] [0x01, 0x83, 0x02, 0xC0, 0xF1] 2 0
    (by decide) (by decide)
    (fun j hj => by interval_cases j <;> rfl) rfl (by decide)).trans (by decide)


/-! ## Timeout -/

/-- While every poll is empty and the counter stays at or below `timeout_ms`,
the polling loop is still running: each of the first `timeout_ms` iterations
ends without a return. -/
theorem awaitResponse_running (ctx : ModbusMaster) (hempty : ∀ j, ctx.uart_receive j = [])
    (fuel : Nat) :
    ∀ polls start_time : Nat, start_time + fuel ≤ ctx.timeout_ms →
      ctx.timeout_ms < 4294967296 → awaitResponse ctx fuel polls start_time = none := by
  induction fuel with
  | zero => intro polls start_time _ _; rfl
  | succ fuel ih =>
    intro polls start_time hle hmax
    simp only [awaitResponse]
    rw [hempty polls, if_pos (by rfl), Nat.mod_eq_of_lt (by omega), if_neg (by omega)]
    exact ih (polls + 1) (start_time + 1) (by omega) hmax

/-- With every poll empty and `timeout_ms` below the largest `uint32_t` value,
the polling loop returns the timeout at the iteration where the counter first
exceeds `timeout_ms`. -/
theorem awaitResponse_timed_out (ctx : ModbusMaster) (hempty : ∀ j, ctx.uart_receive j = [])
    (hmax : ctx.timeout_ms < 4294967295) (n fuel : Nat) :
    ∀ polls start_time : Nat, start_time + n = ctx.timeout_ms →
      awaitResponse ctx (n + 1 + fuel) polls start_time =
        some (Polled.timed_out (polls + n + 1)) := by
  induction n with
  | zero =>
    intro polls start_time hst
    rw [Nat.zero_add, Nat.add_comm 1 fuel]
    simp only [awaitResponse]
    rw [hempty polls, if_pos (by rfl), Nat.mod_eq_of_lt (by omega), if_pos (by omega)]
  | succ n ih =>
    intro polls start_time hst
    rw [show n + 1 + 1 + fuel = (n + 1 + fuel) + 1 by omega]
    simp only [awaitResponse]
    rw [hempty polls, if_pos (by rfl), Nat.mod_eq_of_lt (by omega), if_neg (by omega),
      ih (polls + 1) (start_time + 1) (by omega)]
    congr 2
    omega

/-- The timeout path away from the boundary: when every poll is empty and
`timeout_ms < 4294967295`, `master_transaction` returns `MODBUS_ERR_TIMEOUT`
after exactly `timeout_ms + 1` calls of `delay_ms(1)`, and has not returned
while fewer iterations of the loop have run. -/
theorem master_timeout (ctx : ModbusMaster) (request : List Nat) (fuel : Nat)
    (hempty : ∀ j, ctx.uart_receive j = []) (hmax : ctx.timeout_ms < 4294967295) :
    (master_transaction (ctx.timeout_ms + 1 + fuel) ctx request).finished =
      some { err := MODBUS_ERR_TIMEOUT, response := [], delays := ctx.timeout_ms + 1 } ∧
    ∀ f, f ≤ ctx.timeout_ms → (master_transaction f ctx request).finished = none := by
  constructor
  · have h := awaitResponse_timed_out ctx hempty hmax ctx.timeout_ms fuel 0 0 (by omega)
    simp only [master_transaction, h, Nat.zero_add]
  · intro f hf
    have h := awaitResponse_running ctx hempty f 0 0 (by omega) (by omega)
    simp only [master_transaction, h]

/-- The polling loop of a master with `timeout_ms = 4294967295` and a transport
that never delivers a byte is still running after any number of iterations. -/
theorem awaitResponse_silentMaster (slave_address fuel : Nat) :
    ∀ polls start_time : Nat,
      awaitResponse (silentMaster slave_address) fuel polls start_time = none := by
  induction fuel with
  | zero => intro polls start_time; rfl
  | succ fuel ih =>
    intro polls start_time
    simp only [awaitResponse]
    have hlt : (start_time + 1) % 4294967296 < 4294967296 := Nat.mod_lt _ (by norm_num)
    rw [show (silentMaster slave_address).uart_receive polls = [] from rfl, if_pos (by rfl),
      if_neg (by
        show ¬ (start_time + 1) % 4294967296 > 4294967295
        omega)]
    exact ih _ _

/-- C8, at the failing input `timeout_ms = 4294967295`: with a transport whose
every poll returns 0, `master_transaction` has not returned after any number of
iterations of its polling loop, so it never returns `MODBUS_ERR_TIMEOUT`: the
`uint32_t` counter wraps to 0 and is never greater than `timeout_ms`. -/
theorem master_timeout_never_at_uint32_max (slave_address : Nat) (request : List Nat)
    (fuel : Nat) :
    (master_transaction fuel (silentMaster slave_address) request).finished = none := by
  simp only [master_transaction, awaitResponse_silentMaster]

/-! ## Write single register -/

theorem WriteSingleRegister_sent (fuel : Nat) (ctx : ModbusMaster) (addr value : Nat)
    (ha : addr < 65536) (hv : value < 65536) :
    (ModbusMaster_WriteSingleRegister fuel ctx addr value).sent =
      withCrc (writeSingleRequest ctx.slave_address addr value) := by
  simp only [ModbusMaster_WriteSingleRegister, master_transaction_sent]
  rw [shiftRight_8, shiftRight_8, and_0xFF, and_0xFF,
    Nat.mod_eq_of_lt (a := addr / 256) (by omega),
    Nat.mod_eq_of_lt (a := value / 256) (by omega)]
  rfl

/-- The dispatch has no case for `MODBUS_FC_WRITE_SINGLE_REGISTER`: the request
falls to `default`. -/
theorem writeSingleRequest_frame (slave : ModbusSlave) (addr value : Nat) :
    ModbusSlave_ProcessRequest slave
        (withCrc (writeSingleRequest slave.address addr value)) 8 =
      { slave := slave, response := some (withCrc [slave.address, 0x86, 0x01]),
        reg_reads := [], reg_writes := [] } := by
  have hv := validFrameFor_withCrc slave (writeSingleRequest slave.address addr value) []
    (by simp [writeSingleRequest]) (by simp [writeSingleRequest])
  have hl : (withCrc (writeSingleRequest slave.address addr value)).length = 8 := by
    simp [withCrc, writeSingleRequest]
  rw [hl, List.append_nil] at hv
  have e1 : (withCrc (writeSingleRequest slave.address addr value)).getD 1 0 = 0x06 := by
    simp [withCrc, writeSingleRequest]
  rw [ProcessRequest_of_valid _ _ _ hv,
    dispatch_default slave _ (by rw [e1]; decide) (by rw [e1]; decide) (by rw [e1]; decide), e1]
  rfl

/-- C10 as stated fails: on the initialised slave of address 1, after the request
of `ModbusMaster_WriteSingleRegister(5, 0x1234)` is processed, the request of
`ReadHoldingRegisters(5, 1)` is answered with the register value 0, not
`0x1234`. -/
theorem write_then_read_counterexample :
    (ModbusSlave_ProcessRequest
        (ModbusSlave_ProcessRequest (ModbusSlave_Init 1)
          (ModbusMaster_WriteSingleRegister 0 (ModbusMaster_Init 1 (fun _ => [])) 5 0x1234).sent
          8).slave
        (ModbusMaster_ReadHoldingRegisters 0 (ModbusMaster_Init 1 (fun _ => [])) 5 1
          (fun _ => 0)).sent
        8).response = some [0x01, 0x03, 0x02, 0x00, 0x00, 0xB8, 0x44] ∧
    registerValue [0x01, 0x03, 0x02, 0x00, 0x00, 0xB8, 0x44] 0 ≠ 0x1234 := by
  decide

/-- C10 amended: for every slave store of 16-bit registers, every register
address `addr < 125` and every 16-bit value `v`, the request frame that
`ModbusMaster_WriteSingleRegister(addr, v)` sends is
`[a, 0x06, hi(addr), lo(addr), hi(v), lo(v), crc_lo, crc_hi]`; the dispatch of
`ModbusSlave_ProcessRequest` answers it with the illegal-function exception
`[a, 0x86, 0x01, crc_lo, crc_hi]` and leaves the store unchanged; a following
`ReadHoldingRegisters(addr, 1)` request on the same store yields a read response
whose single register value is the value `holding_registers[addr]` had before
the write request. -/
theorem write_then_read_unchanged (ctx : ModbusMaster) (slave : ModbusSlave)
    (addr v : Nat) (values : Nat → Nat) (fuel : Nat)
    (ha : ctx.slave_address = slave.address) (haddr : addr < 125) (hv : v < 65536)
    (hregs : ∀ r ∈ slave.holding_registers, r < 65536) :
    (ModbusMaster_WriteSingleRegister fuel ctx addr v).sent =
      withCrc [slave.address, 0x06, addr / 256, addr % 256, v / 256, v % 256] ∧
    ModbusSlave_ProcessRequest slave
        (ModbusMaster_WriteSingleRegister fuel ctx addr v).sent 8 =
      { slave := slave, response := some (withCrc [slave.address, 0x86, 0x01]),
        reg_reads := [], reg_writes := [] } ∧
    ∃ response : List Nat,
      (ModbusSlave_ProcessRequest
          (ModbusSlave_ProcessRequest slave
            (ModbusMaster_WriteSingleRegister fuel ctx addr v).sent 8).slave
          (ModbusMaster_ReadHoldingRegisters fuel ctx addr 1 values).sent 8).response =
        some response ∧
      response = withCrc [slave.address, 0x03, 0x02,
        slave.holding_registers.getD addr 0 / 256,
        slave.holding_registers.getD addr 0 % 256] ∧
      registerValue response 0 = slave.holding_registers.getD addr 0 := by
  have hw := WriteSingleRegister_sent fuel ctx addr v (by omega) hv
  rw [ha] at hw
  have hp := writeSingleRequest_frame slave addr v
  rw [← hw] at hp
  have hr := ReadHoldingRegisters_sent fuel ctx addr 1 values (by omega) (by omega)
  rw [ha] at hr
  have hread := readRequest_response slave addr 1 [] (by omega) (by omega) hregs
  rw [List.append_nil] at hread
  have hlt := getD_lt_of_forall_mem slave.holding_registers 65536 (by norm_num) hregs addr
  refine ⟨hw, hp, _, ?_, rfl, ?_⟩
  · rw [hp, hr]
    have := congrArg SlaveOutcome.response hread
    simpa [readResponse] using this
  · simp only [registerValue, withCrc]
    simp
    omega

/-- Witness of C10 amended: the scenario store, register 10 holding 1234, and
the write of `0x1234`: the read still answers 1234. -/
theorem write_then_read_unchanged_witness :
    ModbusSlave_ProcessRequest scenarioSlave
        (ModbusMaster_WriteSingleRegister 0 scenarioMaster 10 0x1234).sent 8 =
      { slave := scenarioSlave, response := some [0x01, 0x86, 0x01, 0x83, 0xA0],
        reg_reads := [], reg_writes := [] } :=
  (write_then_read_unchanged scenarioMaster scenarioSlave 10 0x1234 (fun _ => 0) 0 rfl
    (by decide) (by decide) (by decide)).2.1.trans (by decide)

/-! ## Custom string transfer on the slave side -/

theorem getD_set (l : List Nat) (i j v : Nat) :
    (l.set i v).getD j 0 = if i = j ∧ i < l.length then v else l.getD j 0 := by
  rw [List.getD_eq_getElem?_getD, List.getD_eq_getElem?_getD, List.getElem?_set]
  by_cases hij : i = j
  · subst hij
    by_cases hl : i < l.length
    · simp [hl]
    · simp [hl, List.getElem?_eq_none (Nat.le_of_not_lt hl)]
  · simp [hij]

theorem writeRegisters_eq (holding_registers frame : List Nat) (start_addr byte_count : Nat) :
    (writeRegisters holding_registers frame start_addr byte_count).2 =
        (List.range (byte_count / 2)).map (fun i => start_addr + i) ∧
    (writeRegisters holding_registers frame start_addr byte_count).1.length =
        holding_registers.length ∧
    ∀ j, (writeRegisters holding_registers frame start_addr byte_count).1.getD j 0 =
      if start_addr ≤ j ∧ j < start_addr + byte_count / 2 ∧ j < holding_registers.length then
        ((frame.getD (5 + (j - start_addr) * 2) 0 <<< 8) |||
          frame.getD (6 + (j - start_addr) * 2) 0) % 65536
      else holding_registers.getD j 0 := by
  unfold writeRegisters
  generalize byte_count / 2 = n
  induction n with
  | zero =>
    refine ⟨rfl, rfl, fun j => ?_⟩
    rw [if_neg (by omega)]
    rfl
  | succ n ih =>
    obtain ⟨ih1, ih2, ih3⟩ := ih
    rw [List.range_succ, List.foldl_append, List.foldl_cons, List.foldl_nil]
    refine ⟨?_, ?_, fun j => ?_⟩
    · simp only [ih1, List.map_append, List.map_cons, List.map_nil]
    · simp only [List.length_set, ih2]
    · simp only [getD_set, ih2, ih3]
      by_cases hj : start_addr + n = j
      · subst hj
        by_cases hl : start_addr + n < holding_registers.length
        · rw [if_pos ⟨rfl, hl⟩, if_pos ⟨by omega, by omega, hl⟩, Nat.add_sub_cancel_left]
        · rw [if_neg (by omega), if_neg (by omega), if_neg (by omega)]
      · rw [if_neg (by omega)]
        by_cases hin : start_addr ≤ j ∧ j < start_addr + n ∧ j < holding_registers.length
        · rw [if_pos hin, if_pos ⟨hin.1, by omega, hin.2.2⟩]
        · rw [if_neg hin, if_neg (by omega)]

/-- The `MODBUS_FC_CUSTOM_STRING` case of the dispatch on a frame whose start
address field is made of bytes. -/
theorem dispatch_string (slave : ModbusSlave) (frame : List Nat)
    (hfn : frame.getD 1 0 = 0x16)
    (h2 : frame.getD 2 0 < 256) (h3 : frame.getD 3 0 < 256) :
    dispatch slave frame =
      if frame.getD 4 0 > 30 ∨
          frame.getD 2 0 * 256 + frame.getD 3 0 + frame.getD 4 0 / 2 > 125 then
        { slave := slave, response := some [slave.address, 0x96, 0x03],
          reg_reads := [], reg_writes := [] }
      else
        { slave :=
            { slave with
              holding_registers :=
                (writeRegisters slave.holding_registers frame
                  (frame.getD 2 0 * 256 + frame.getD 3 0) (frame.getD 4 0)).1 }
          response := some [slave.address, 0x16, frame.getD 2 0, frame.getD 3 0,
            (frame.getD 4 0 / 256) % 256, frame.getD 4 0 % 256]
          reg_reads := []
          reg_writes :=
            (writeRegisters slave.holding_registers frame
              (frame.getD 2 0 * 256 + frame.getD 3 0) (frame.getD 4 0)).2 } := by
  simp only [dispatch]
  rw [if_neg (by rw [hfn]; decide), if_pos hfn, word_of_bytes _ _ h2 h3, hfn, shiftRight_8,
    shiftRight_8, and_0xFF, and_0xFF]
  have e1 : (frame.getD 2 0 * 256 + frame.getD 3 0) / 256 % 256 = frame.getD 2 0 := by omega
  have e2 : (frame.getD 2 0 * 256 + frame.getD 3 0) % 256 = frame.getD 3 0 := by omega
  rw [e1, e2]
  rfl

/-- C11: custom string transfer (0x16).  For every CRC-valid frame of bytes
addressed to the slave with function `0x16`, `start = frame[2]*256 + frame[3]`
and `byteCount = frame[4]`, on a store of 125 holding registers: if
`byteCount > 30` or `start + byteCount/2 > 125` the response is the exception
`[address, 0x96, 0x03, crc_lo, crc_hi]` and the store is unchanged; otherwise the
response is `[address, 0x16, hi(start), lo(start), 0x00, byteCount, crc_lo,
crc_hi]`, for every `i < byteCount/2` the new `holding_registers[start + i]` is
`frame[5+2i]*256 + frame[6+2i]`, every other holding register and every other
field of the slave is unchanged, no register is read and the registers written
are `start .. start + byteCount/2 - 1`. -/
theorem slave_custom_string (slave : ModbusSlave) (frame : List Nat) (frame_length : Nat)
    (hv : ValidFrameFor slave frame frame_length) (hfn : frame.getD 1 0 = 0x16)
    (hbytes : ∀ b ∈ frame, b < 256) (hregs : slave.holding_registers.length = 125) :
    ((requestByteCount frame > 30 ∨
        requestStart frame + requestByteCount frame / 2 > 125) →
      ModbusSlave_ProcessRequest slave frame frame_length =
        { slave := slave
          response := some ([slave.address, 0x96, 0x03] ++
            [crc16 [slave.address, 0x96, 0x03] % 256, crc16 [slave.address, 0x96, 0x03] / 256])
          reg_reads := []
          reg_writes := [] }) ∧
    (¬ (requestByteCount frame > 30 ∨
        requestStart frame + requestByteCount frame / 2 > 125) →
      (ModbusSlave_ProcessRequest slave frame frame_length).response =
        some (withCrc [slave.address, 0x16, requestStart frame / 256,
          requestStart frame % 256, 0x00, requestByteCount frame]) ∧
      (∀ i, i < requestByteCount frame / 2 →
        (ModbusSlave_ProcessRequest slave frame frame_length).slave.holding_registers.getD
            (requestStart frame + i) 0 =
          frame.getD (5 + 2 * i) 0 * 256 + frame.getD (6 + 2 * i) 0) ∧
      (∀ j, ¬ (requestStart frame ≤ j ∧
            j < requestStart frame + requestByteCount frame / 2) →
        (ModbusSlave_ProcessRequest slave frame frame_length).slave.holding_registers.getD j 0 =
          slave.holding_registers.getD j 0) ∧
      (ModbusSlave_ProcessRequest slave frame frame_length).slave.holding_registers.length =
        slave.holding_registers.length ∧
      (ModbusSlave_ProcessRequest slave frame frame_length).slave.address = slave.address ∧
      (ModbusSlave_ProcessRequest slave frame frame_length).slave.coils = slave.coils ∧
      (ModbusSlave_ProcessRequest slave frame frame_length).slave.discrete_inputs =
        slave.discrete_inputs ∧
      (ModbusSlave_ProcessRequest slave frame frame_length).slave.input_registers =
        slave.input_registers ∧
      (ModbusSlave_ProcessRequest slave frame frame_length).reg_reads = [] ∧
      (ModbusSlave_ProcessRequest slave frame frame_length).reg_writes =
        (List.range (requestByteCount frame / 2)).map (fun i => requestStart frame + i)) := by
  have hb : ∀ i, frame.getD i 0 < 256 :=
    getD_lt_of_forall_mem frame 256 (by norm_num) hbytes
  have hd := dispatch_string slave frame hfn (hb 2) (hb 3)
  have hp := ProcessRequest_of_valid slave frame frame_length hv
  obtain ⟨w1, w2, w3⟩ := writeRegisters_eq slave.holding_registers frame
    (requestStart frame) (requestByteCount frame)
  simp only [requestStart, requestByteCount] at w1 w2 w3 ⊢
  constructor
  · intro h
    rw [hp, hd, if_pos h]
    rfl
  · intro h
    rw [hp, hd, if_neg h]
    have h4 := hb 4
    refine ⟨?_, ?_, ?_, w2, rfl, rfl, rfl, rfl, rfl, w1⟩
    · have e1 : frame.getD 4 0 / 256 % 256 = 0 := by omega
      have e2 : frame.getD 4 0 % 256 = frame.getD 4 0 := by omega
      have e3 : (frame.getD 2 0 * 256 + frame.getD 3 0) / 256 = frame.getD 2 0 := by
        have := hb 3
        omega
      have e4 : (frame.getD 2 0 * 256 + frame.getD 3 0) % 256 = frame.getD 3 0 := by
        have := hb 3
        omega
      simp only [Option.map_some', e1, e2, e3, e4]
    · intro i hi
      show (writeRegisters slave.holding_registers frame
        (frame.getD 2 0 * 256 + frame.getD 3 0) (frame.getD 4 0)).1.getD
          (frame.getD 2 0 * 256 + frame.getD 3 0 + i) 0 = _
      rw [w3, if_pos ⟨by omega, by omega, by omega⟩, Nat.add_sub_cancel_left,
        word_of_bytes _ _ (hb _) (hb _), Nat.mul_comm i 2]
    · intro j hj
      show (writeRegisters slave.holding_registers frame
        (frame.getD 2 0 * 256 + frame.getD 3 0) (frame.getD 4 0)).1.getD j 0 = _
      rw [w3, if_neg (by omega)]

/-- Witness of C11: the four bytes `48 69 21 00` sent to registers 20 and 21 of
the scenario slave. -/
theorem slave_custom_string_witness :
    (ModbusSlave_ProcessRequest scenarioSlave
        (withCrc [1, 0x16, 0, 20, 4, 0x48, 0x69, 0x21, 0x00]) 11).slave.holding_registers.getD
          (requestStart (withCrc [1, 0x16, 0, 20, 4, 0x48, 0x69, 0x21, 0x00]) + 1) 0 =
      0x2100 :=
  ((slave_custom_string scenarioSlave (withCrc [1, 0x16, 0, 20, 4, 0x48, 0x69, 0x21, 0x00]) 11
    (by decide) (by decide) (by decide) (by decide)).2 (by decide)).2.1 1 (by decide)

/-! ## Write multiple registers -/

theorem verifyWriteResponse_eq (response : List Nat) (start_addr quantity : Nat)
    (hbytes : ∀ b ∈ response, b < 256) :
    verifyWriteResponse response start_addr quantity =
      if response.length = 8 ∧ response.getD 1 0 = 0x10 ∧
          response.getD 2 0 * 256 + response.getD 3 0 = start_addr ∧
          response.getD 4 0 * 256 + response.getD 5 0 = quantity then
        MODBUS_SUCCESS
      else MODBUS_ERR_INVALID_DATA := by
  have hb : ∀ i, response.getD i 0 < 256 :=
    getD_lt_of_forall_mem response 256 (by norm_num) hbytes
  simp only [verifyWriteResponse, MODBUS_FC_WRITE_MULTIPLE_REGISTERS]
  rw [shiftLeft_8_or _ _ (hb 3), shiftLeft_8_or _ _ (hb 5)]
  by_cases h : response.length = 8 ∧ response.getD 1 0 = 0x10 ∧
      response.getD 2 0 * 256 + response.getD 3 0 = start_addr ∧
      response.getD 4 0 * 256 + response.getD 5 0 = quantity
  · rw [if_pos h, if_neg (by omega)]
  · rw [if_neg h, if_pos (by omega)]

theorem WriteMultipleRegisters_finished (ctx : ModbusMaster) (start_addr quantity : Nat)
    (values response : List Nat) (k fuel : Nat)
    (hq1 : 1 ≤ quantity) (hq : quantity ≤ 125)
    (hk : k ≤ ctx.timeout_ms) (hmax : ctx.timeout_ms < 4294967296)
    (hempty : ∀ j, j < k → ctx.uart_receive j = [])
    (hrx : ctx.uart_receive k = response) (hne : response ≠ [])
    (hok : master_validate ctx response = MODBUS_SUCCESS) :
    (ModbusMaster_WriteMultipleRegisters (k + 1 + fuel) ctx start_addr quantity
        values).finished =
      some (verifyWriteResponse response start_addr quantity) := by
  simp only [ModbusMaster_WriteMultipleRegisters]
  rw [if_neg (by simp only [ MODBUS_MAX_HOLDING_REGISTERS]; omega)]
  simp only [master_transaction_received ctx _ response k fuel hk hmax hempty hrx hne, hok]
  simp

/-- C12 as stated fails: a response that passes `master_transaction` and echoes
start address 0 and quantity 1 makes `ModbusMaster_WriteMultipleRegisters(0, 1)`
return `MODBUS_ERR_INVALID_DATA` when its function code is `0x03`, and also when
it is `0x10` but the response is 9 bytes long. -/
theorem write_multiple_echo_counterexample :
    (master_validate (ModbusMaster_Init 1 (fun _ => withCrc [1, 0x03, 0, 0, 0, 1]))
        (withCrc [1, 0x03, 0, 0, 0, 1]) = MODBUS_SUCCESS ∧
      (withCrc [1, 0x03, 0, 0, 0, 1]).getD 2 0 * 256 +
        (withCrc [1, 0x03, 0, 0, 0, 1]).getD 3 0 = 0 ∧
      (withCrc [1, 0x03, 0, 0, 0, 1]).getD 4 0 * 256 +
        (withCrc [1, 0x03, 0, 0, 0, 1]).getD 5 0 = 1 ∧
      (ModbusMaster_WriteMultipleRegisters 1
        (ModbusMaster_Init 1 (fun _ => withCrc [1, 0x03, 0, 0, 0, 1])) 0 1 [5]).finished =
        some MODBUS_ERR_INVALID_DATA) ∧
    (master_validate (ModbusMaster_Init 1 (fun _ => withCrc [1, 0x10, 0, 0, 0, 1, 0xAA]))
        (withCrc [1, 0x10, 0, 0, 0, 1, 0xAA]) = MODBUS_SUCCESS ∧
      (withCrc [1, 0x10, 0, 0, 0, 1, 0xAA]).getD 2 0 * 256 +
        (withCrc [1, 0x10, 0, 0, 0, 1, 0xAA]).getD 3 0 = 0 ∧
      (withCrc [1, 0x10, 0, 0, 0, 1, 0xAA]).getD 4 0 * 256 +
        (withCrc [1, 0x10, 0, 0, 0, 1, 0xAA]).getD 5 0 = 1 ∧
      (ModbusMaster_WriteMultipleRegisters 1
        (ModbusMaster_Init 1 (fun _ => withCrc [1, 0x10, 0, 0, 0, 1, 0xAA])) 0 1 [5]).finished =
        some MODBUS_ERR_INVALID_DATA) := by
  decide

/-- C12 amended: for every start, every quantity in [1,125] and every response
of bytes on which `master_transaction` returns `MODBUS_SUCCESS` (received at the
first non-empty poll, after `k ≤ timeout_ms` empty ones),
`ModbusMaster_WriteMultipleRegisters` returns `MODBUS_SUCCESS` if the response is
8 bytes long, its function code is `0x10`, its echoed start address (bytes 2..3,
big-endian) equals start and its echoed quantity (bytes 4..5, big-endian) equals
quantity, and returns `MODBUS_ERR_INVALID_DATA` otherwise. -/
theorem write_multiple_echo (ctx : ModbusMaster) (start quantity : Nat)
    (values resp : List Nat) (k fuel : Nat)
    (hq1 : 1 ≤ quantity) (hq : quantity ≤ 125)
    (hk : k ≤ ctx.timeout_ms) (hmax : ctx.timeout_ms < 4294967296)
    (hempty : ∀ j, j < k → ctx.uart_receive j = [])
    (hrx : ctx.uart_receive k = resp) (hne : resp ≠ [])
    (hbytes : ∀ b ∈ resp, b < 256)
    (hok : master_validate ctx resp = MODBUS_SUCCESS) :
    (ModbusMaster_WriteMultipleRegisters (k + 1 + fuel) ctx start quantity values).finished =
      some
        (if resp.length = 8 ∧ resp.getD 1 0 = 0x10 ∧
            resp.getD 2 0 * 256 + resp.getD 3 0 = start ∧
            resp.getD 4 0 * 256 + resp.getD 5 0 = quantity then
          MODBUS_SUCCESS
        else MODBUS_ERR_INVALID_DATA) := by
  rw [WriteMultipleRegisters_finished ctx start quantity values resp k fuel hq1 hq hk hmax
    hempty hrx hne hok, verifyWriteResponse_eq resp start quantity hbytes]

/-- Witness of C12 amended: the echo `01 10 00 00 00 01` of a write of one
register at address 0 is accepted. -/
theorem write_multiple_echo_witness :
    (ModbusMaster_WriteMultipleRegisters 1
      (ModbusMaster_Init 1 (fun _ => withCrc [1, 0x10, 0, 0, 0, 1])) 0 1 [5]).finished =
      some MODBUS_SUCCESS :=
  write_multiple_echo (ModbusMaster_Init 1 (fun _ => withCrc [1, 0x10, 0, 0, 0, 1])) 0 1 [5]
    (withCrc [1, 0x10, 0, 0, 0, 1]) 0 0 (by decide) (by decide) (by decide) (by decide)
    (fun j hj => absurd hj (Nat.not_lt_zero j)) rfl (by decide) (by decide) (by decide)

/-! ## Missing checks on the master side -/

/-- C13, at two failing inputs.  With quantity 1 and a CRC-valid response that
carries the byte count 4, `ModbusMaster_ReadHoldingRegisters` returns
`MODBUS_SUCCESS` and has written `values[1]`, an index beyond `quantity - 1`.
With quantity 2 and a CRC-valid response that carries the byte count 2, it
returns `MODBUS_SUCCESS` and has left `values[1]` as it was (here 7), not
`response[5]*256 + response[6]`.  The number of entries written is
`response[2] / 2`, whatever `quantity` is. -/
theorem master_read_unpacks_byte_count :
    (∃ vals : Nat → Nat,
      (ModbusMaster_ReadHoldingRegisters 1
        (ModbusMaster_Init 1 (fun _ => withCrc [1, 0x03, 4, 0, 1, 0, 2])) 0 1
        (fun _ => 0)).finished = some (MODBUS_SUCCESS, vals) ∧
      vals 0 = 1 ∧ vals 1 = 2) ∧
    (∃ vals : Nat → Nat,
      (ModbusMaster_ReadHoldingRegisters 1
        (ModbusMaster_Init 1 (fun _ => withCrc [1, 0x03, 2, 0, 1])) 0 2
        (fun _ => 7)).finished = some (MODBUS_SUCCESS, vals) ∧
      vals 0 = 1 ∧ vals 1 = 7 ∧
      (withCrc [1, 0x03, 2, 0, 1]).getD 5 0 * 256 + (withCrc [1, 0x03, 2, 0, 1]).getD 6 0 ≠ 7) :=
  ⟨⟨unpackRegisters (withCrc [1, 0x03, 4, 0, 1, 0, 2]) (fun _ => 0), rfl, by decide, by decide⟩,
   ⟨unpackRegisters (withCrc [1, 0x03, 2, 0, 1]) (fun _ => 7), rfl, by decide, by decide,
     by decide⟩⟩

/-- C14, at the failing inputs quantity 0 and quantity 126:
`ModbusMaster_ReadHoldingRegisters` hands the eight request bytes to the
transport in both cases, and for quantity 0, with the scenario slave answering
the request, it returns `MODBUS_SUCCESS`. -/
theorem master_read_sends_invalid_quantity :
    (ModbusMaster_ReadHoldingRegisters 1
      (ModbusMaster_Init 1 (fun _ => withCrc [1, 0x03, 0])) 0 0 (fun _ => 0)).sent =
      [0x01, 0x03, 0x00, 0x00, 0x00, 0x00, 0x45, 0xCA] ∧
    (ModbusSlave_ProcessRequest scenarioSlave
      [0x01, 0x03, 0x00, 0x00, 0x00, 0x00, 0x45, 0xCA] 8).response =
      some (withCrc [1, 0x03, 0]) ∧
    (ModbusMaster_ReadHoldingRegisters 1
      (ModbusMaster_Init 1 (fun _ => withCrc [1, 0x03, 0])) 0 0 (fun _ => 0)).finished.map
        Prod.fst = some MODBUS_SUCCESS ∧
    (ModbusMaster_ReadHoldingRegisters 1
      (ModbusMaster_Init 1 (fun _ => withCrc [1, 0x03, 0])) 0 126 (fun _ => 0)).sent =
      withCrc [0x01, 0x03, 0x00, 0x00, 0x00, 126] := by
  decide

/-! ## Send string -/

theorem strlen_cString (text rest : List Nat) (hnz : ∀ c ∈ text, c ≠ 0) :
    strlen (cString text rest) = text.length := by
  unfold cString
  induction text with
  | nil => simp [strlen]
  | cons c cs ih =>
    have hc : c ≠ 0 := hnz c (List.mem_cons_self c cs)
    have hcs : ∀ d ∈ cs, d ≠ 0 := fun d hd => hnz d (List.mem_cons_of_mem c hd)
    simp only [List.cons_append, strlen, if_neg hc, List.length_cons]
    rw [← ih hcs]
    simp

theorem packString_reads (str : List Nat) : (packString str).2 = List.range 30 := rfl

theorem packString_registers (str : List Nat) :
    (packString str).1 =
      (List.range 15).map (fun i =>
        ((str.getD (i * 2) 0 <<< 8) ||| (str.getD (i * 2 + 1) 0 &&& 0xFF)) % 65536) := rfl

theorem packString_getD (str : List Nat) (i : Nat) (hi : i < 15) :
    (packString str).1.getD i 0 =
      ((str.getD (i * 2) 0 <<< 8) ||| (str.getD (i * 2 + 1) 0 &&& 0xFF)) % 65536 := by
  rw [packString_registers, List.getD_eq_getElem?_getD, List.getElem?_map,
    List.getElem?_range hi]
  rfl

theorem SendString_accepted (fuel : Nat) (ctx : ModbusMaster) (start_addr : Nat)
    (str : List Nat) (h : strlen str ≤ 50) :
    ModbusMaster_SendString fuel ctx start_addr str =
      { str_reads := List.range 30, registers := some (packString str).1
        write := ModbusMaster_WriteMultipleRegisters fuel ctx start_addr 15
          (packString str).1 } := by
  simp only [ModbusMaster_SendString]
  rw [Nat.mod_eq_of_lt (by omega), if_neg (by omega), packString_reads]

/-- What the length check of `ModbusMaster_SendString` does reject: a text whose
length, as a `uint16_t`, exceeds 50. -/
theorem SendString_rejected (fuel : Nat) (ctx : ModbusMaster) (start_addr : Nat)
    (str : List Nat) (h : strlen str % 65536 > 50) :
    ModbusMaster_SendString fuel ctx start_addr str =
      { str_reads := [], registers := none
        write := { sent := none, finished := some MODBUS_ERR_INVALID_DATA,
                   request_size := 0, request_writes := [] } } := by
  simp only [ModbusMaster_SendString]
  rw [if_pos h]

/-- C15, at the failing input of a text of 31 bytes `A`:
`ModbusMaster_SendString` does not return at its length check (the bound there
is 50); it packs the first 30 bytes, hands a `WriteMultipleRegisters` request
for 15 registers to the transport and, when the echo `01 10 00 00 00 0F` comes
back, returns `MODBUS_SUCCESS` instead of `MODBUS_ERR_INVALID_DATA`. -/
theorem send_string_accepts_31_bytes :
    (ModbusMaster_SendString 1
        (ModbusMaster_Init 1 (fun _ => withCrc [1, 0x10, 0, 0, 0, 15])) 0
        (cString (List.replicate 31 0x41) [])).write.sent =
      some (withCrc ([1, 0x10, 0, 0, 0, 15, 30] ++ List.replicate 30 0x41)) ∧
    (ModbusMaster_SendString 1
        (ModbusMaster_Init 1 (fun _ => withCrc [1, 0x10, 0, 0, 0, 15])) 0
        (cString (List.replicate 31 0x41) [])).write.finished =
      some MODBUS_SUCCESS := by
  decide

/-- C16: `SendString` packing.  For every NUL-terminated text of bytes of odd
length `L ≤ 29` (followed in memory by anything), the array `registers` that
`ModbusMaster_SendString` passes to `ModbusMaster_WriteMultipleRegisters` with
quantity 15 has 15 entries, `registers[i] = text[2i]*256 + text[2i+1]` for every
`i < (L-1)/2`, and `registers[(L-1)/2]` has high byte `text[L-1]` and low byte
0. -/
theorem send_string_packing (fuel : Nat) (ctx : ModbusMaster) (start_addr : Nat)
    (text rest : List Nat) (hodd : text.length % 2 = 1) (hL : text.length ≤ 29)
    (hnz : ∀ c ∈ text, c ≠ 0) (hbytes : ∀ c ∈ text, c < 256) :
    ∃ registers : List Nat,
      (ModbusMaster_SendString fuel ctx start_addr (cString text rest)).registers =
        some registers ∧
      (ModbusMaster_SendString fuel ctx start_addr (cString text rest)).write =
        ModbusMaster_WriteMultipleRegisters fuel ctx start_addr 15 registers ∧
      registers.length = 15 ∧
      (∀ i, i < (text.length - 1) / 2 →
        registers.getD i 0 = text.getD (2 * i) 0 * 256 + text.getD (2 * i + 1) 0) ∧
      registers.getD ((text.length - 1) / 2) 0 / 256 = text.getD (text.length - 1) 0 ∧
      registers.getD ((text.length - 1) / 2) 0 % 256 = 0 := by
  have hlen := strlen_cString text rest hnz
  have hacc := SendString_accepted fuel ctx start_addr (cString text rest) (by omega)
  have hb : ∀ i, text.getD i 0 < 256 := getD_lt_of_forall_mem text 256 (by norm_num) hbytes
  have hin : ∀ i, i < text.length → (cString text rest).getD i 0 = text.getD i 0 := by
    intro i hi
    unfold cString
    rw [List.append_assoc, List.getD_append _ _ _ _ hi]
  have hnul : (cString text rest).getD text.length 0 = 0 := by
    unfold cString
    have := getD_append_add text ([0] ++ rest) 0
    rw [Nat.add_zero] at this
    rw [List.append_assoc, this]
    rfl
  refine ⟨(packString (cString text rest)).1, by rw [hacc], by rw [hacc], ?_, ?_, ?_, ?_⟩
  · rw [packString_registers]; simp
  · intro i hi
    rw [packString_getD _ i (by omega), hin _ (by omega), hin _ (by omega), and_0xFF,
      Nat.mod_eq_of_lt (hb _), word_of_bytes _ _ (hb _) (hb _), Nat.mul_comm i 2]
  · have e1 : (text.length - 1) / 2 * 2 = text.length - 1 := by omega
    have e2 : (text.length - 1) / 2 * 2 + 1 = text.length := by omega
    rw [packString_getD _ _ (by omega), e2, e1, hin _ (by omega), hnul, and_0xFF,
      word_of_bytes _ _ (hb _) (by norm_num)]
    omega
  · have e1 : (text.length - 1) / 2 * 2 = text.length - 1 := by omega
    have e2 : (text.length - 1) / 2 * 2 + 1 = text.length := by omega
    rw [packString_getD _ _ (by omega), e2, e1, hin _ (by omega), hnul, and_0xFF,
      word_of_bytes _ _ (hb _) (by norm_num)]
    omega

/-- Witness of C16: the text `Hi!` followed in memory by the bytes `7 7 7`. -/
theorem send_string_packing_witness :
    ∃ registers : List Nat,
      (ModbusMaster_SendString 0 scenarioMaster 0
        (cString [0x48, 0x69, 0x21] [7, 7, 7])).registers = some registers ∧
      registers.getD 0 0 = 0x4869 ∧ registers.getD 1 0 / 256 = 0x21 ∧
      registers.getD 1 0 % 256 = 0 := by
  obtain ⟨registers, h1, _, _, h4, h5, h6⟩ :=
    send_string_packing 0 scenarioMaster 0 [0x48, 0x69, 0x21] [7, 7, 7] (by decide)
      (by decide) (by decide) (by decide)
  exact ⟨registers, h1, h4 0 (by decide), h5, h6⟩

/-- C20, at the failing input of the text `A` (length 1):
`ModbusMaster_SendString` passes the length check and its packing loop reads
`str` at every index `0 .. 29`; index 29, like every index from 2 on, is beyond the
terminating NUL at index 1. -/
theorem send_string_reads_past_terminator :
    (ModbusMaster_SendString 0 scenarioMaster 0 (cString [0x41] [])).registers ≠ none ∧
    (ModbusMaster_SendString 0 scenarioMaster 0 (cString [0x41] [])).str_reads =
      List.range 30 ∧
    29 ∈ (ModbusMaster_SendString 0 scenarioMaster 0 (cString [0x41] [])).str_reads ∧
    ¬ 29 ≤ strlen (cString [0x41] []) := by
  decide

/-! ## The request buffer of write multiple registers -/

theorem packRegisters_eq (values : List Nat) (quantity : Nat) (request writes : List Nat) :
    packRegisters values quantity request writes =
      (request ++ (List.range quantity).flatMap (fun i =>
          [(values.getD i 0 >>> 8) % 256, values.getD i 0 &&& 0xFF]),
       writes ++ (List.range quantity).flatMap (fun i => [7 + i * 2, 8 + i * 2])) := by
  unfold packRegisters
  induction quantity with
  | zero => simp
  | succ n ih =>
    rw [List.range_succ, List.foldl_append, ih]
    simp [List.flatMap_append]

/-- For every quantity in [1,125] the array `request` of
`ModbusMaster_WriteMultipleRegisters` is declared with `6 + 2*quantity` entries
and the indices `6 + 2*quantity` (low byte of the last value),
`7 + 2*quantity` and `8 + 2*quantity` (the CRC bytes) are written. -/
theorem WriteMultipleRegisters_overflow (fuel : Nat) (ctx : ModbusMaster)
    (start_addr quantity : Nat) (values : List Nat)
    (hq1 : 1 ≤ quantity) (hq : quantity ≤ 125) :
    (ModbusMaster_WriteMultipleRegisters fuel ctx start_addr quantity values).request_size =
      6 + 2 * quantity ∧
    6 + 2 * quantity ∈
      (ModbusMaster_WriteMultipleRegisters fuel ctx start_addr quantity
        values).request_writes ∧
    7 + 2 * quantity ∈
      (ModbusMaster_WriteMultipleRegisters fuel ctx start_addr quantity
        values).request_writes ∧
    8 + 2 * quantity ∈
      (ModbusMaster_WriteMultipleRegisters fuel ctx start_addr quantity
        values).request_writes := by
  simp only [ModbusMaster_WriteMultipleRegisters]
  rw [if_neg (by simp only [ MODBUS_MAX_HOLDING_REGISTERS]; omega)]
  simp only [packRegisters_eq, master_transaction_writes]
  refine ⟨trivial, ?_, ?_, ?_⟩
  · apply List.mem_append_left
    apply List.mem_append_right
    rw [List.mem_flatMap]
    exact ⟨quantity - 1, List.mem_range.mpr (by omega), by
      rw [show 6 + 2 * quantity = 8 + (quantity - 1) * 2 by omega]
      simp⟩
  · apply List.mem_append_right
    rw [show 7 + 2 * quantity = 7 + quantity * 2 by omega]
    simp
  · apply List.mem_append_right
    rw [show 8 + 2 * quantity = 7 + quantity * 2 + 1 by omega]
    simp

/-- C19, at the failing input quantity 1: the array `request` of
`ModbusMaster_WriteMultipleRegisters` is declared with 8 entries, and the
indices written are `0 .. 8` by the function itself and `9`, `10` by
`master_transaction`; the indices 8, 9 and 10 are not below the declared
length. -/
theorem write_multiple_request_overflow :
    (ModbusMaster_WriteMultipleRegisters 0 scenarioMaster 0 1 [0x1234]).request_size = 8 ∧
    (ModbusMaster_WriteMultipleRegisters 0 scenarioMaster 0 1 [0x1234]).request_writes =
      [0, 1, 2, 3, 4, 5, 6, 7, 8, 9, 10] ∧
    ¬ ∀ i ∈ (ModbusMaster_WriteMultipleRegisters 0 scenarioMaster 0 1 [0x1234]).request_writes,
      i < (ModbusMaster_WriteMultipleRegisters 0 scenarioMaster 0 1 [0x1234]).request_size := by
  decide

/-! ## Bounds of the slave dispatch -/

theorem dispatch_bounds (slave : ModbusSlave) (frame : List Nat) :
    (∀ i ∈ (dispatch slave frame).reg_reads, i < 125) ∧
    (∀ i ∈ (dispatch slave frame).reg_writes, i < 125) ∧
    (∀ r, (dispatch slave frame).response = some r → r.length ≤ 254) := by
  simp only [dispatch, MODBUS_MAX_HOLDING_REGISTERS]
  split_ifs with h1 h2 h3 h4
  · refine ⟨by simp, by simp, ?_⟩
    intro r hr
    rw [← Option.some.inj hr]
    simp
  · refine ⟨?_, by simp, ?_⟩
    · intro i hi
      simp only [readRegisters_eq, List.mem_flatMap, List.mem_range] at hi
      obtain ⟨a, ha, hia⟩ := hi
      simp only [List.mem_cons, List.mem_singleton, List.not_mem_nil, or_false, or_self] at hia
      omega
    · intro r hr
      rw [← Option.some.inj hr]
      simp only [readRegisters_eq, List.length_append, length_flatMap_pair, List.length_cons,
        List.length_nil]
      omega
  · refine ⟨by simp, by simp, ?_⟩
    intro r hr
    rw [← Option.some.inj hr]
    simp
  · refine ⟨by simp, ?_, ?_⟩
    · intro i hi
      simp only [(writeRegisters_eq _ _ _ _).1, List.mem_map, List.mem_range] at hi
      obtain ⟨a, ha, hia⟩ := hi
      omega
    · intro r hr
      rw [← Option.some.inj hr]
      simp
  · refine ⟨by simp, by simp, ?_⟩
    intro r hr
    rw [← Option.some.inj hr]
    simp

theorem ProcessRequest_cases (slave : ModbusSlave) (frame : List Nat) (frame_length : Nat) :
    ModbusSlave_ProcessRequest slave frame frame_length =
        { slave := slave, response := none, reg_reads := [], reg_writes := [] } ∨
    ModbusSlave_ProcessRequest slave frame frame_length =
        { dispatch slave frame with response := (dispatch slave frame).response.map withCrc } := by
  simp only [ModbusSlave_ProcessRequest, crc_bytes]
  split_ifs
  · exact Or.inl rfl
  · exact Or.inl rfl
  · exact Or.inl rfl
  · exact Or.inr rfl

/-- C18: register store bounds.  For every slave store and every inbound frame
of bytes, of any length and contents, every `holding_registers` index that the
dispatch of `ModbusSlave_ProcessRequest` reads or writes is below 125 and the
response it builds, CRC bytes included, has at most 256 bytes, so every index
written in the response buffer is below 256; a `0x03` request with
`start + quantity > 125` and a `0x16` request with `start + byteCount/2 > 125`
touch no register and leave the slave unchanged. -/
theorem slave_register_bounds (slave : ModbusSlave) (frame : List Nat) (frame_length : Nat)
    (hbytes : ∀ b ∈ frame, b < 256) :
    (∀ i ∈ (ModbusSlave_ProcessRequest slave frame frame_length).reg_reads, i < 125) ∧
    (∀ i ∈ (ModbusSlave_ProcessRequest slave frame frame_length).reg_writes, i < 125) ∧
    (∀ r, (ModbusSlave_ProcessRequest slave frame frame_length).response = some r →
      r.length ≤ MODBUS_MAX_FRAME_SIZE) ∧
    (frame.getD 1 0 = 0x03 → requestStart frame + requestQuantity frame > 125 →
      (ModbusSlave_ProcessRequest slave frame frame_length).reg_reads = [] ∧
      (ModbusSlave_ProcessRequest slave frame frame_length).reg_writes = [] ∧
      (ModbusSlave_ProcessRequest slave frame frame_length).slave = slave) ∧
    (frame.getD 1 0 = 0x16 → requestStart frame + requestByteCount frame / 2 > 125 →
      (ModbusSlave_ProcessRequest slave frame frame_length).reg_reads = [] ∧
      (ModbusSlave_ProcessRequest slave frame frame_length).reg_writes = [] ∧
      (ModbusSlave_ProcessRequest slave frame frame_length).slave = slave) := by
  have hb : ∀ i, frame.getD i 0 < 256 :=
    getD_lt_of_forall_mem frame 256 (by norm_num) hbytes
  obtain ⟨d1, d2, d3⟩ := dispatch_bounds slave frame
  rcases ProcessRequest_cases slave frame frame_length with h | h
  · rw [h]
    refine ⟨by simp, by simp, by simp, fun _ _ => ⟨rfl, rfl, rfl⟩, fun _ _ => ⟨rfl, rfl, rfl⟩⟩
  · rw [h]
    refine ⟨d1, d2, ?_, ?_, ?_⟩
    · intro r hr
      simp only [Option.map_eq_some'] at hr
      obtain ⟨r0, hr0, hrr⟩ := hr
      have := d3 r0 hr0
      rw [← hrr]
      simp only [withCrc, List.length_append, List.length_cons, List.length_nil,
        MODBUS_MAX_FRAME_SIZE]
      omega
    · intro hfn hrange
      simp only [requestStart, requestQuantity] at hrange
      rw [dispatch_read slave frame hfn (hb 2) (hb 3) (hb 4) (hb 5), if_pos hrange]
      exact ⟨rfl, rfl, rfl⟩
    · intro hfn hrange
      simp only [requestStart, requestByteCount] at hrange
      rw [dispatch_string slave frame hfn (hb 2) (hb 3), if_pos (Or.inr hrange)]
      exact ⟨rfl, rfl, rfl⟩

/-- Witness of C18: the custom string request of four bytes for registers 20
and 21 of the scenario slave: register 21 is written, 21 is below 125, and the
response of 8 bytes fits the response buffer. -/
theorem slave_register_bounds_witness :
    (21 ∈ (ModbusSlave_ProcessRequest scenarioSlave
        (withCrc [1, 0x16, 0, 20, 4, 0x48, 0x69, 0x21, 0x00]) 11).reg_writes ∧ 21 < 125) ∧
    (withCrc [1, 0x16, 0, 20, 0, 4]).length ≤ MODBUS_MAX_FRAME_SIZE :=
  ⟨⟨by decide,
    (slave_register_bounds scenarioSlave (withCrc [1, 0x16, 0, 20, 4, 0x48, 0x69, 0x21, 0x00])
      11 (by decide)).2.1 21 (by decide)⟩,
   (slave_register_bounds scenarioSlave (withCrc [1, 0x16, 0, 20, 4, 0x48, 0x69, 0x21, 0x00])
      11 (by decide)).2.2.1 (withCrc [1, 0x16, 0, 20, 0, 4]) (by decide)⟩

/-! ## Error detection of the CRC -/

theorem xor_0xA001_ge (x : Nat) (hx : x < 32768) : 32768 ≤ x ^^^ 0xA001 := by
  have h1 : x.testBit 15 = false := Nat.testBit_lt_two_pow (by simpa using hx)
  have h2 : (0xA001 : Nat).testBit 15 = true := by decide
  have h3 : (x ^^^ 0xA001).testBit 15 = true := by
    rw [Nat.testBit_xor, h1, h2]
    rfl
  have := Nat.testBit_implies_ge h3
  simpa using this

/-- The reference step is injective on 16-bit values. -/
theorem modbusCrcStep_inj (c d : Nat) (hc : c < 65536) (hd : d < 65536)
    (h : modbusCrcStep c = modbusCrcStep d) : c = d := by
  unfold modbusCrcStep at h
  have hc2 := xor_0xA001_ge (c / 2) (by omega)
  have hd2 := xor_0xA001_ge (d / 2) (by omega)
  by_cases h1 : c % 2 = 1 <;> by_cases h2 : d % 2 = 1
  · rw [if_pos h1, if_pos h2] at h
    have := Nat.xor_left_injective h
    simp only at this
    omega
  · rw [if_pos h1, if_neg h2] at h
    omega
  · rw [if_neg h1, if_pos h2] at h
    omega
  · rw [if_neg h1, if_neg h2] at h
    omega

theorem modbusCrcStep_iterate_inj (k c d : Nat) (hc : c < 65536) (hd : d < 65536)
    (h : modbusCrcStep^[k] c = modbusCrcStep^[k] d) : c = d := by
  induction k generalizing c d with
  | zero => simpa using h
  | succ k ih =>
    rw [Function.iterate_succ_apply, Function.iterate_succ_apply] at h
    exact modbusCrcStep_inj c d hc hd
      (ih _ _ (modbusCrcStep_lt c hc) (modbusCrcStep_lt d hd) h)

/-- Two different 16-bit states stay different after the same byte. -/
theorem crc16_byte_state_ne (s t b : Nat) (hs : s < 65536) (ht : t < 65536) (hne : s ≠ t) :
    crc16_byte s b ≠ crc16_byte t b := by
  intro h
  simp only [crc16_byte, crc16_bits_eq] at h
  have hb : b % 65536 < 2 ^ 16 := by omega
  have := modbusCrcStep_iterate_inj 8 _ _
    (Nat.xor_lt_two_pow (n := 16) (by omega) hb)
    (Nat.xor_lt_two_pow (n := 16) (by omega) hb) h
  exact hne (Nat.xor_left_injective this)

/-- Two different bytes lead one state to two different states. -/
theorem crc16_byte_byte_ne (s x y : Nat) (hs : s < 65536) (hx : x < 65536) (hy : y < 65536)
    (hne : x ≠ y) : crc16_byte s x ≠ crc16_byte s y := by
  intro h
  simp only [crc16_byte, crc16_bits_eq, Nat.mod_eq_of_lt hx, Nat.mod_eq_of_lt hy] at h
  have := modbusCrcStep_iterate_inj 8 _ _
    (Nat.xor_lt_two_pow (n := 16) (by omega) (by omega))
    (Nat.xor_lt_two_pow (n := 16) (by omega) (by omega)) h
  exact hne (Nat.xor_right_injective this)

theorem foldl_crc16_byte_lt (l : List Nat) (s : Nat) (hs : s < 65536) :
    l.foldl crc16_byte s < 65536 := by
  induction l generalizing s with
  | nil => simpa using hs
  | cons b bs ih => exact ih _ (crc16_byte_lt s b hs)

theorem foldl_crc16_byte_ne (l : List Nat) (s t : Nat) (hs : s < 65536) (ht : t < 65536)
    (hne : s ≠ t) : l.foldl crc16_byte s ≠ l.foldl crc16_byte t := by
  induction l generalizing s t with
  | nil => simpa using hne
  | cons b bs ih =>
    exact ih _ _ (crc16_byte_lt s b hs) (crc16_byte_lt t b ht)
      (crc16_byte_state_ne s t b hs ht hne)

theorem crc16_middle_ne (pre post : List Nat) (x y : Nat) (hx : x < 65536) (hy : y < 65536)
    (hne : x ≠ y) : crc16 (pre ++ x :: post) ≠ crc16 (pre ++ y :: post) := by
  simp only [crc16, List.foldl_append, List.foldl_cons]
  have hs := foldl_crc16_byte_lt pre 0xFFFF (by norm_num)
  exact foldl_crc16_byte_ne post _ _ (crc16_byte_lt _ x hs) (crc16_byte_lt _ y hs)
    (crc16_byte_byte_ne _ x y hs hx hy hne)

/-- Changing one byte of a buffer changes its CRC. -/
theorem crc16_set_ne (l : List Nat) (j v : Nat) (hj : j < l.length)
    (hx : l.getD j 0 < 65536) (hv : v < 65536) (hne : v ≠ l.getD j 0) :
    crc16 (l.set j v) ≠ crc16 l := by
  have hl : l.take j ++ l.getD j 0 :: l.drop (j + 1) = l := by
    rw [List.getD_eq_getElem _ _ hj, ← List.drop_eq_getElem_cons hj, List.take_append_drop]
  have h := crc16_middle_ne (l.take j) (l.drop (j + 1)) v (l.getD j 0) hv hx hne
  rw [hl, ← List.set_eq_take_cons_drop v hj] at h
  exact h

theorem xor_two_pow_ne (x b : Nat) : x ^^^ 2 ^ b ≠ x := by
  intro h
  have h0 : x ^^^ 2 ^ b = x ^^^ 0 := by rw [h, Nat.xor_zero]
  have := Nat.xor_right_injective h0
  have hp : 0 < 2 ^ b := Nat.two_pow_pos b
  omega

theorem xor_two_pow_lt (x b : Nat) (hx : x < 256) (hb : b < 8) : x ^^^ 2 ^ b < 256 := by
  have h : 2 ^ b < 2 ^ 8 := Nat.pow_lt_pow_right (by norm_num) hb
  exact Nat.xor_lt_two_pow (n := 8) (by simpa using hx) h

/-- A valid frame with one bit flipped fails the CRC comparison. -/
theorem flipBit_crc_mismatch (frame : List Nat) (j b : Nat)
    (hlen : 4 ≤ frame.length)
    (hlo : frame.getD (frame.length - 2) 0 = crc16 (frame.take (frame.length - 2)) % 256)
    (hhi : frame.getD (frame.length - 1) 0 = crc16 (frame.take (frame.length - 2)) / 256)
    (hbytes : ∀ x ∈ frame, x < 256) (hj : j < frame.length) (hb : b < 8) :
    (flipBit frame j b).length = frame.length ∧
    ¬ ((flipBit frame j b).getD (frame.length - 2) 0 =
          crc16 ((flipBit frame j b).take (frame.length - 2)) % 256 ∧
        (flipBit frame j b).getD (frame.length - 1) 0 =
          crc16 ((flipBit frame j b).take (frame.length - 2)) / 256) := by
  have hx : frame.getD j 0 < 256 := getD_lt_of_forall_mem frame 256 (by norm_num) hbytes j
  have hv := xor_two_pow_lt (frame.getD j 0) b hx hb
  have hne := xor_two_pow_ne (frame.getD j 0) b
  refine ⟨by simp [flipBit], ?_⟩
  simp only [flipBit, getD_set, List.set_take]
  by_cases hjm : j < frame.length - 2
  · have htl : j < (frame.take (frame.length - 2)).length := by
      rw [List.length_take]; omega
    have hget : (frame.take (frame.length - 2)).getD j 0 = frame.getD j 0 := by
      rw [List.getD_eq_getElem?_getD, List.getD_eq_getElem?_getD,
        List.getElem?_take_of_lt hjm]
    have hcrc := crc16_set_ne (frame.take (frame.length - 2)) j (frame.getD j 0 ^^^ 2 ^ b) htl
      (by rw [hget]; omega) (by omega) (by rw [hget]; exact hne)
    have h1 := crc16_lt ((frame.take (frame.length - 2)).set j (frame.getD j 0 ^^^ 2 ^ b))
    have h2 := crc16_lt (frame.take (frame.length - 2))
    rw [if_neg (by omega), if_neg (by omega), hlo, hhi]
    omega
  · have hset : (frame.take (frame.length - 2)).set j (frame.getD j 0 ^^^ 2 ^ b) =
        frame.take (frame.length - 2) :=
      List.set_eq_of_length_le (by rw [List.length_take]; omega)
    rw [hset]
    by_cases hj2 : j = frame.length - 2
    · rw [if_pos ⟨hj2, hj⟩, ← hlo, ← hj2]
      intro h
      exact hne h.1
    · have hj1 : j = frame.length - 1 := by omega
      rw [if_neg (by omega), if_pos ⟨hj1, hj⟩, ← hhi, ← hj1]
      intro h
      exact hne h.2

theorem ProcessRequest_discard (slave : ModbusSlave) (frame : List Nat) (frame_length : Nat)
    (h : ¬ (frame.getD (frame_length - 2) 0 = crc16 (frame.take (frame_length - 2)) % 256 ∧
         frame.getD (frame_length - 1) 0 = crc16 (frame.take (frame_length - 2)) / 256)) :
    ModbusSlave_ProcessRequest slave frame frame_length =
      { slave := slave, response := none, reg_reads := [], reg_writes := [] } := by
  simp only [ModbusSlave_ProcessRequest]
  rw [and_0xFF, shiftRight_8]
  split_ifs <;> first | rfl | (exfalso; omega)

/-- C17: single-bit error detection.  For every valid frame of bytes (length at
least 4, trailing two bytes equal to the low and high byte of the CRC of the
bytes before them) and every bit position (byte `j`, bit `b`), the frame with
that one bit flipped fails the CRC comparison: `master_transaction` returns
`MODBUS_ERR_CRC_MISMATCH` when the transport delivers it, and
`ModbusSlave_ProcessRequest` discards it without a response. -/
theorem single_bit_error_detected (ctx : ModbusMaster) (slave : ModbusSlave)
    (request frame : List Nat) (j b k fuel : Nat)
    (hlen : 4 ≤ frame.length)
    (hlo : frame.getD (frame.length - 2) 0 = crc16 (frame.take (frame.length - 2)) % 256)
    (hhi : frame.getD (frame.length - 1) 0 = crc16 (frame.take (frame.length - 2)) / 256)
    (hbytes : ∀ x ∈ frame, x < 256) (hj : j < frame.length) (hb : b < 8)
    (hk : k ≤ ctx.timeout_ms) (hmax : ctx.timeout_ms < 4294967296)
    (hempty : ∀ i, i < k → ctx.uart_receive i = [])
    (hrx : ctx.uart_receive k = flipBit frame j b) :
    (master_transaction (k + 1 + fuel) ctx request).finished =
      some { err := MODBUS_ERR_CRC_MISMATCH, response := flipBit frame j b, delays := k } ∧
    ModbusSlave_ProcessRequest slave (flipBit frame j b) (flipBit frame j b).length =
      { slave := slave, response := none, reg_reads := [], reg_writes := [] } := by
  obtain ⟨hl, hbad⟩ := flipBit_crc_mismatch frame j b hlen hlo hhi hbytes hj hb
  have hne : flipBit frame j b ≠ [] := by
    intro h
    rw [h] at hl
    simp at hl
    omega
  constructor
  · rw [master_transaction_received ctx request _ k fuel hk hmax hempty hrx hne,
      master_validate_eq, hl, if_neg (by omega), if_pos hbad]
  · rw [hl]
    exact ProcessRequest_discard slave _ _ hbad

/-- Witness of C17: bit 0 of byte 3 of the request `01 03 00 0A 00 01 A4 08`
flipped. -/
theorem single_bit_error_detected_witness :
    (master_transaction 1
        (ModbusMaster_Init 1 (fun _ => [0x01, 0x03, 0x00, 0x0B, 0x00, 0x01, 0xA4, 0x08]))
        [0x01, 0x03, 0x00, 0x0A, 0x00, 0x01]).finished =
      some { err := MODBUS_ERR_CRC_MISMATCH,
             response := [0x01, 0x03, 0x00, 0x0B, 0x00, 0x01, 0xA4, 0x08], delays := 0 } :=
  (single_bit_error_detected
    (ModbusMaster_Init 1 (fun _ => [0x01, 0x03, 0x00, 0x0B, 0x00, 0x01, 0xA4, 0x08]))
    scenarioSlave [0x01, 0x03, 0x00, 0x0A, 0x00, 0x01]
    [0x01, 0x03, 0x00, 0x0A, 0x00, 0x01, 0xA4, 0x08] 3 0 0 0
    (by decide) (by decide) (by decide) (by decide) (by decide) (by decide) (by decide)
    (by decide) (fun i hi => absurd hi (Nat.not_lt_zero i)) rfl).1

end Modbus
